import Mathlib

/-!
A shallow embedding of the go-lox tree-walking interpreter
(repository `ocowchun/go-lox`): token model, AST, recursive-descent
parser, static resolver, environment chain and evaluator, translated
from the Go sources (`parser/parser.go`, `interpreter/interpreter.go`,
`interpreter/environment.go`, `interpreter/resolver.go`, `token`, `ast`).

Modelling conventions, used uniformly below:

* Go `float64` Lox numbers are modelled as exact fractions (`LoxNum`);
  every claim below is about kind checks, error routing and control
  flow, never about floating-point rounding.
* Heap-allocated `*Environment` frames are modelled as indices into an
  append-only list of frames (`InterpState.frames`); `nil` parent
  pointers become `Option.none`.  This preserves sharing and mutation
  of captured frames.
* Functions that loop or recurse without a structural measure
  (the evaluator, the parser, the resolver, the environment-chain
  walks) take a fuel parameter; a `none` / `.out` result means the
  fuel ran out and models divergence.  The Go parser and resolver
  always terminate, so any large enough fuel is equivalent to the
  Go behaviour; the evaluator can genuinely diverge, and
  "`= none` for every fuel" expresses that.
* Go panics (failed type assertions in `execute`/`Evaluate`, calls on
  nil interfaces, nil-map-entry dereferences) are modelled by a
  distinguished `panicked` outcome that propagates outward, mirroring
  an unrecovered Go panic.
* Go `map[string]T` is modelled as an association list whose update
  replaces the first matching key; Go map iteration order is
  nondeterministic, which is noted at the one place it is observable.
-/

namespace GoLox

/-- Token kinds, from `token/token.go` (`TokenTypeLeftParen … TokenTypeEOF`). -/
inductive TokenType
  | LeftParen
  | RightParen
  | LeftBrace
  | RightBrace
  | Comma
  | Dot
  | Minus
  | Plus
  | Semicolon
  | Slash
  | Star
  | Bang
  | BangEqual
  | Equal
  | EqualEqual
  | Greater
  | GreaterEqual
  | Less
  | LessEqual
  | Identifier
  | String
  | Number
  | And
  | Class
  | Else
  | False
  | For
  | Fun
  | If
  | Nil
  | Or
  | Print
  | Return
  | Super
  | This
  | True
  | Var
  | While
  | QuestionMark
  | Colon
  | EOF
deriving DecidableEq, Repr

/-- `TokenType.String()` from `token/token.go`. -/
def tokenTypeGoString : TokenType → String
  | .LeftParen => "LEFT_PAREN"
  | .RightParen => "RIGHT_PAREN"
  | .LeftBrace => "LEFT_BRACE"
  | .RightBrace => "RIGHT_BRACE"
  | .Comma => "COMMA"
  | .Dot => "DOT"
  | .Minus => "MINUS"
  | .Plus => "PLUS"
  | .Semicolon => "SEMICOLON"
  | .Slash => "SLASH"
  | .Star => "STAR"
  | .Bang => "BANG"
  | .BangEqual => "BANG_EQUAL"
  | .Equal => "EQUAL"
  | .EqualEqual => "EQUAL_EQUAL"
  | .Greater => "GREATER"
  | .GreaterEqual => "GREATER_EQUAL"
  | .Less => "LESS"
  | .LessEqual => "LESS_EQUAL"
  | .Identifier => "IDENTIFIER"
  | .String => "STRING"
  | .Number => "NUMBER"
  | .And => "AND"
  | .Class => "CLASS"
  | .Else => "ELSE"
  | .False => "FALSE"
  | .For => "FOR"
  | .Fun => "FUN"
  | .If => "IF"
  | .Nil => "NIL"
  | .Or => "OR"
  | .Print => "PRINT"
  | .Return => "RETURN"
  | .Super => "SUPER"
  | .This => "THIS"
  | .True => "TRUE"
  | .Var => "VAR"
  | .While => "WHILE"
  | .QuestionMark => "QUESTION_MARK"
  | .Colon => "COLON"
  | .EOF => "EOF"

/-- A Lox number (Go `float64`), modelled as an exact fraction: an
integer numerator and a (nonzero, possibly negative, not necessarily
reduced) integer denominator.  Every claim below is about kind checks,
error routing and control flow, never about floating-point rounding, so
exact fraction arithmetic is the idealisation used; fractions are kept
unreduced so that every operation is plain integer arithmetic and
computes inside the kernel.  Two fractions are the same number exactly
when they cross-multiply equally. -/
structure LoxNum where
  num : Int
  den : Int
deriving DecidableEq, Repr

/-- The number a literal token `n` denotes. -/
def LoxNum.ofInt (i : Int) : LoxNum := ⟨i, 1⟩

/-- Integer numerals denote themselves over denominator 1. -/
instance (n : Nat) : OfNat LoxNum n := ⟨⟨n, 1⟩⟩

/-- The float64 value `0`. -/
def loxZero : LoxNum := ⟨0, 1⟩

/-- Float64 `==` on numbers: cross-multiplication equality of exact
fractions (valid for any nonzero denominators). -/
def loxEq (a b : LoxNum) : Bool := a.num * b.den = b.num * a.den

/-- Float64 `<`: `na/da < nb/db ↔ na·da·db² < nb·db·da²` (the right-hand
multipliers are squares, hence positive, for nonzero denominators). -/
def loxLt (a b : LoxNum) : Bool :=
  a.num * a.den * (b.den * b.den) < b.num * b.den * (a.den * a.den)

/-- Float64 `<=`, by the same cross-multiplication. -/
def loxLe (a b : LoxNum) : Bool :=
  a.num * a.den * (b.den * b.den) ≤ b.num * b.den * (a.den * a.den)

/-- Float64 addition. -/
def loxAdd (a b : LoxNum) : LoxNum :=
  ⟨a.num * b.den + b.num * a.den, a.den * b.den⟩

/-- Float64 subtraction. -/
def loxSub (a b : LoxNum) : LoxNum :=
  ⟨a.num * b.den - b.num * a.den, a.den * b.den⟩

/-- Float64 multiplication. -/
def loxMul (a b : LoxNum) : LoxNum :=
  ⟨a.num * b.num, a.den * b.den⟩

/-- Float64 division (the interpreter only divides after its divisor-zero
check, which keeps the denominator nonzero). -/
def loxDiv (a b : LoxNum) : LoxNum :=
  ⟨a.num * b.den, a.den * b.num⟩

/-- Float64 negation. -/
def loxNeg (a : LoxNum) : LoxNum := ⟨-a.num, a.den⟩

/-- The `Literal any` field of a Go token: a number, a string, or Go `nil`. -/
inductive LitVal
  | none
  | num (n : LoxNum)
  | str (s : String)
deriving DecidableEq, Repr

/-- `token.Token`: `{Type, Lexeme, Literal, Line}`. -/
structure Token where
  type : TokenType
  lexeme : String
  literal : LitVal
  line : Nat
deriving DecidableEq, Repr

/-- The zero-valued `token.Token{Type: TokenTypeEOF}` returned by
`Parser.currentToken` past the end of the token slice. -/
def Token.eofDefault : Token := ⟨.EOF, "", .none, 0⟩

/-- The payload of `ast.LiteralExpression.Value` (`any` in Go):
`true`/`false`/`nil` keyword literals or a token's number/string literal. -/
inductive Lit
  | nil
  | num (n : LoxNum)
  | str (s : String)
  | boolean (b : Bool)
deriving DecidableEq, Repr

/-- Expression nodes from `ast/expr.go`, restricted to the variants the
parser in `parser/parser.go` can actually produce, plus `nilExpr`.

`nilExpr` models a Go `nil` value of interface type `ast.Expr`: the
err-swallowing loop in `Parser.parseCall` (see `parseCallLoop` below)
assigns `callee, err = p.finishCall(callee)` into a shadowed `err`,
so after a `finishCall` failure the callee is the Go `nil` expression. -/
inductive Expr
  | Literal (value : Lit)
  | Grouping (expression : Expr)
  | Unary (operator : Token) (right : Expr)
  | Binary (left : Expr) (operator : Token) (right : Expr)
  | Logical (left : Expr) (operator : Token) (right : Expr)
  | Comma (expressions : List Expr)
  | Condition (predicate : Expr) (consequent : Expr) (alternative : Expr)
  | Variable (name : Token)
  | Assign (name : Token) (value : Expr)
  | Call (callee : Expr) (paren : Token) (arguments : List Expr)
  | nilExpr
deriving Repr

/-- Statement nodes from `ast/stmt.go`, restricted to the variants the
parser can produce.  A Go `*ast.BlockStatement` is its statement list, so
`FunctionStatement.Body` is carried as a `List Stmt`.  `Option` fields
model the Go `nil`-able fields (`VarStatement.Initializer`,
`IfStatement.ElseBranch`, `ReturnStatement.Value`).  `nilStmt` models a
Go `nil` of interface type `ast.Stmt`: `parseForStatement` never checks
the error of its body's `ParseStatement` call, so a failed body parse
flows into the desugared loop as a nil statement. -/
inductive Stmt
  | Expression (expression : Expr)
  | Print (expression : Expr)
  | Var (name : Token) (initializer : Option Expr)
  | Block (statements : List Stmt)
  | If (condition : Expr) (thenBranch : Stmt) (elseBranch : Option Stmt)
  | While (condition : Expr) (body : Stmt)
  | Function (name : Token) (parameters : List Token) (body : List Stmt)
  | Return (keyword : Token) (value : Option Expr)
  | nilStmt
deriving Repr

/-- Runtime values (`§3` of the data model): the dynamic types stored in the
`any` slots of the Go interpreter.  `function` inlines the two fields of
`interpreter.Function` (`declaration`, `closure`); the closure is a frame
index.  `clock` is the one native function installed by `interpreter.New`. -/
inductive Value
  | nil
  | num (n : LoxNum)
  | str (s : String)
  | boolean (b : Bool)
  | function (name : Token) (parameters : List Token) (body : List Stmt) (closure : Nat)
  | clock
deriving Repr

/-- What Go's `fmt.Sprintf("%T", v)` prints for each runtime value; used in
the interpreter's error messages. -/
def Value.goTypeName : Value → String
  | .nil => "<nil>"
  | .num _ => "float64"
  | .str _ => "string"
  | .boolean _ => "bool"
  | .function _ _ _ _ => "*interpreter.Function"
  | .clock => "*interpreter.clockFunction"

/-- Evaluating an `ast.LiteralExpression` returns its stored payload
(`VisitLiteralExpression`). -/
def Lit.toValue : Lit → Value
  | .nil => Value.nil
  | .num n => Value.num n
  | .str s => Value.str s
  | .boolean b => Value.boolean b

/-- Runtime errors.  `runtime` is `interpreter.RuntimeError{Token, Message}`;
`plain` is a bare `fmt.Errorf` error value carrying no token (the
`TokenTypeGreaterEqual` arm of `VisitBinaryExpression` produces one). -/
inductive LoxErr
  | runtime (tok : Token) (message : String)
  | plain (message : String)
deriving Repr

/-- One `interpreter.Environment` frame: `{values map[string]any,
enclosing *Environment}` with the parent pointer as a frame index. -/
structure Frame where
  values : List (String × Value)
  enclosing : Option Nat
deriving Repr

/-- One line of standard output.  `printed v` is a `print` statement's
line (`fmt.Println(result.Value)`, or the literal text `nil` when the
value is nil); `commaDebug` is the stray debug line
`fmt.Println("===VisitCommaExpression", expr)` at the top of
`VisitCommaExpression`. -/
inductive OutLine
  | printed (v : Value)
  | commaDebug
deriving Repr

/-- The interpreter's mutable state: the frame heap, the index of the
currently active environment (`Interpreter.environment`), the lines
printed so far, and the value `time.Now().Unix()` would produce
(abstracted as a constant; only the native `clock` reads it). -/
structure InterpState where
  frames : List Frame
  env : Nat
  output : List OutLine
  now : LoxNum
deriving Repr

/-- Go map insertion `m[k] = v`: replace the binding if the key is
present, otherwise add it. -/
def listUpsert : List (String × Value) → String → Value → List (String × Value)
  | [], k, v => [(k, v)]
  | (k', v') :: rest, k, v =>
    if k' = k then (k, v) :: rest else (k', v') :: listUpsert rest k v

/-- Go map membership `_, ok := m[k]`. -/
def containsKey : List (String × Value) → String → Bool
  | [], _ => false
  | (k', _) :: rest, k => k' = k || containsKey rest k

/-- Go map lookup `v, ok := m[k]`. -/
def lookupKey : List (String × Value) → String → Option Value
  | [], _ => Option.none
  | (k', v') :: rest, k => if k' = k then some v' else lookupKey rest k

/-- `Environment.Define` (environment.go): insert/overwrite in the frame
`ref` only.  Out-of-range indices cannot arise from the interpreter. -/
def envDefine (frames : List Frame) (ref : Nat) (name : String) (v : Value) :
    List Frame :=
  match frames[ref]? with
  | Option.none => frames
  | some fr => frames.set ref ⟨listUpsert fr.values name v, fr.enclosing⟩

/-- `Environment.Get` (environment.go): look in this frame, else recurse
into the ancestor chain, else `RuntimeError "Undefined variable <name>"`.
The fuel bounds the chain walk; `none` is unreachable for well-formed
heaps given fuel `≥` the heap size. -/
def envGet (fuel : Nat) (frames : List Frame) (ref : Nat) (name : Token) :
    Option (Except LoxErr Value) :=
  match fuel with
  | 0 => Option.none
  | fuel + 1 =>
    match frames[ref]? with
    | Option.none => Option.none
    | some fr =>
      match lookupKey fr.values name.lexeme with
      | some v => some (.ok v)
      | Option.none =>
        match fr.enclosing with
        | some parent => envGet fuel frames parent name
        | Option.none =>
          some (.error (.runtime name ("Undefined variable " ++ name.lexeme)))

/-- `Environment.Assign` (environment.go): if the name is absent from this
frame, recurse into the enclosing frame when there is one and fail with
`RuntimeError "Undefined variable <name>"` at the root; otherwise mutate
the binding in this frame. -/
def envAssign (fuel : Nat) (frames : List Frame) (ref : Nat) (name : Token)
    (v : Value) : Option (Except LoxErr (List Frame)) :=
  match fuel with
  | 0 => Option.none
  | fuel + 1 =>
    match frames[ref]? with
    | Option.none => Option.none
    | some fr =>
      if containsKey fr.values name.lexeme then
        some (.ok (frames.set ref ⟨listUpsert fr.values name.lexeme v, fr.enclosing⟩))
      else
        match fr.enclosing with
        | some parent => envAssign fuel frames parent name v
        | Option.none =>
          some (.error (.runtime name ("Undefined variable " ++ name.lexeme)))

/-- `isEqual` (interpreter.go): nil equals only nil; numbers, strings and
booleans compare by value across matching kinds; every other pairing
(including functions) falls through to `false`. -/
def isEqual (left right : Value) : Bool :=
  match left, right with
  | .nil, .nil => true
  | .nil, _ => false
  | _, .nil => false
  | .num a, .num b => loxEq a b
  | .str a, .str b => a = b
  | .boolean a, .boolean b => a = b
  | _, _ => false

/-- `isTruthy` (interpreter.go): nil is falsy, booleans are themselves,
every other value is truthy. -/
def isTruthy : Value → Bool
  | .nil => false
  | .boolean b => b
  | _ => true

/-- `interpreter.New`: one global frame holding the native `clock`. -/
def initialState (now : LoxNum) : InterpState :=
  ⟨[⟨[("clock", Value.clock)], Option.none⟩], 0, [], now⟩

/-- The result of `Interpreter.Evaluate`: an `EvaluatedResult{Value, Error}`
with `err` for a non-nil `Error`, or `panicked` for an unrecovered Go
panic (e.g. the `.(EvaluatedResult)` type assertion failing on the `nil`
returned by `VisitConditionExpression`). -/
inductive EvalOutcome
  | ok (v : Value)
  | err (e : LoxErr)
  | panicked
deriving Repr

/-- The result of `Interpreter.execute`: a `StatementResult` that is
normal completion, a `ReturnValue` signal, an error, or a Go panic.
(When a Go `StatementResult` carries both a `ReturnValue` and an error,
every caller checks the error first, so it is modelled as `err`.) -/
inductive StmtOutcome
  | normal
  | ret (v : Value)
  | err (e : LoxErr)
  | panicked
deriving Repr

/-- Result of the argument-evaluation loop in `VisitCallExpression`. -/
inductive ArgsOutcome
  | ok (vs : List Value)
  | err (e : LoxErr)
  | panicked
deriving Repr

/-- The `switch expr.Operator.Type` of `VisitBinaryExpression`, applied to
the two already-evaluated operands.  Every arm is translated from
interpreter.go, including the two asymmetries the source has:
`TokenTypeGreaterEqual` builds a bare `fmt.Errorf` error instead of a
`RuntimeError` carrying the operator token, and `TokenTypeBangEqual`
returns `isEqual` unnegated, so `!=` computes the same answer as `==`. -/
def binaryOp (op : Token) (l r : Value) : EvalOutcome :=
  match op.type with
  | .Plus =>
    match l, r with
    | .num a, .num b => .ok (.num (loxAdd a b))
    | .str a, .str b => .ok (.str (a ++ b))
    | _, _ =>
      .err (.runtime op ("expected numbers/strings for addition, got " ++
        l.goTypeName ++ " and " ++ r.goTypeName))
  | .Minus =>
    match l, r with
    | .num a, .num b => .ok (.num (loxSub a b))
    | _, _ =>
      .err (.runtime op ("expected numbers for subtraction, got " ++
        l.goTypeName ++ " and " ++ r.goTypeName))
  | .Slash =>
    match l, r with
    | .num a, .num b =>
      if loxEq b loxZero then .err (.runtime op "division by zero is not allowed")
      else .ok (.num (loxDiv a b))
    | _, _ =>
      .err (.runtime op ("expected numbers for division, got " ++
        l.goTypeName ++ " and " ++ r.goTypeName))
  | .Star =>
    match l, r with
    | .num a, .num b => .ok (.num (loxMul a b))
    | _, _ =>
      .err (.runtime op ("expected numbers for multiplication, got " ++
        l.goTypeName ++ " and " ++ r.goTypeName))
  | .Greater =>
    match l, r with
    | .num a, .num b => .ok (.boolean (loxLt b a))
    | _, _ =>
      .err (.runtime op ("expected numbers for greater than comparison, got " ++
        l.goTypeName ++ " and " ++ r.goTypeName))
  | .GreaterEqual =>
    match l, r with
    | .num a, .num b => .ok (.boolean (loxLe b a))
    | _, _ =>
      .err (.plain ("expected numbers for greater than or equal comparison, got " ++
        l.goTypeName ++ " and " ++ r.goTypeName))
  | .Less =>
    match l, r with
    | .num a, .num b => .ok (.boolean (loxLt a b))
    | _, _ =>
      .err (.runtime op ("expected numbers for less than comparison, got " ++
        l.goTypeName ++ " and " ++ r.goTypeName))
  | .LessEqual =>
    match l, r with
    | .num a, .num b => .ok (.boolean (loxLe a b))
    | _, _ =>
      .err (.runtime op ("expected numbers for less than or equal comparison, got " ++
        l.goTypeName ++ " and " ++ r.goTypeName))
  | .EqualEqual => .ok (.boolean (isEqual l r))
  | .BangEqual => .ok (.boolean (isEqual l r))
  | _ => .err (.runtime op ("unknown binary operator: " ++ op.lexeme))

/-- `Callable.Arity`: declared parameter count for a `Function`, `0` for
the native clock. -/
def callableArity : Value → Nat
  | .function _ params _ _ => params.length
  | _ => 0

mutual

/-- `Interpreter.Evaluate` / the expression visitor methods of
interpreter.go, with explicit state passing and fuel.  Panic-producing
paths (a visitor returning a non-`EvaluatedResult`, the
`VisitConditionExpression` TODO returning nil) yield `panicked`. -/
def evalExpr : Nat → InterpState → Expr → Option (InterpState × EvalOutcome)
  | 0, _, _ => Option.none
  | fuel + 1, st, e =>
    match e with
    | .Literal v => some (st, .ok v.toValue)
    | .Grouping inner => evalExpr fuel st inner
    | .Unary op right =>
      match evalExpr fuel st right with
      | Option.none => Option.none
      | some (st1, .panicked) => some (st1, .panicked)
      | some (st1, .err err) => some (st1, .err err)
      | some (st1, .ok v) =>
        match op.type with
        | .Minus =>
          match v with
          | .num n => some (st1, .ok (.num (loxNeg n)))
          | _ =>
            some (st1, .err (.runtime op
              ("expected a number for unary minus, got " ++ v.goTypeName)))
        | .Bang => some (st1, .ok (.boolean (!isTruthy v)))
        | _ =>
          some (st1, .err (.runtime op ("unknown unary operator: " ++ op.lexeme)))
    | .Binary l op r =>
      match evalExpr fuel st l with
      | Option.none => Option.none
      | some (st1, .panicked) => some (st1, .panicked)
      | some (st1, .err err) => some (st1, .err err)
      | some (st1, .ok lv) =>
        match evalExpr fuel st1 r with
        | Option.none => Option.none
        | some (st2, .panicked) => some (st2, .panicked)
        | some (st2, .err err) => some (st2, .err err)
        | some (st2, .ok rv) => some (st2, binaryOp op lv rv)
    | .Logical l op r =>
      match evalExpr fuel st l with
      | Option.none => Option.none
      | some (st1, .panicked) => some (st1, .panicked)
      | some (st1, .err err) => some (st1, .err err)
      | some (st1, .ok lv) =>
        if op.type = .Or then
          if isTruthy lv then some (st1, .ok lv) else evalExpr fuel st1 r
        else
          if !isTruthy lv then some (st1, .ok lv) else evalExpr fuel st1 r
    | .Comma exprs =>
      -- VisitCommaExpression first prints its debug line, then evaluates
      -- every operand; the loop accumulator starts as the zero
      -- EvaluatedResult, i.e. the nil value.
      evalCommaLoop fuel
        ⟨st.frames, st.env, st.output ++ [.commaDebug], st.now⟩ exprs Value.nil
    | .Condition _ _ _ =>
      -- VisitConditionExpression is `// TODO` and returns Go nil; the
      -- `.(EvaluatedResult)` assertion in Evaluate then panics.
      some (st, .panicked)
    | .Variable name =>
      match envGet st.frames.length st.frames st.env name with
      | Option.none => Option.none
      | some (.ok v) => some (st, .ok v)
      | some (.error err) => some (st, .err err)
    | .Assign name value =>
      match evalExpr fuel st value with
      | Option.none => Option.none
      | some (st1, .panicked) => some (st1, .panicked)
      | some (st1, .err err) => some (st1, .err err)
      | some (st1, .ok v) =>
        match envAssign st1.frames.length st1.frames st1.env name v with
        | Option.none => Option.none
        | some (.error err) => some (st1, .err err)
        | some (.ok frames') => some (⟨frames', st1.env, st1.output, st1.now⟩, .ok v)
    | .Call callee paren args =>
      match evalExpr fuel st callee with
      | Option.none => Option.none
      | some (st1, .panicked) => some (st1, .panicked)
      | some (st1, .err err) => some (st1, .err err)
      | some (st1, .ok cv) =>
        match cv with
        | .function _ _ _ _ | .clock =>
          if args.length ≠ callableArity cv then
            some (st1, .err (.runtime paren
              ("expected " ++ toString (callableArity cv) ++
                " arguments but got " ++ toString args.length)))
          else
            match evalArgs fuel st1 args [] with
            | Option.none => Option.none
            | some (st2, .panicked) => some (st2, .panicked)
            | some (st2, .err err) => some (st2, .err err)
            | some (st2, .ok vs) => callCallable fuel st2 cv vs
        | _ =>
          some (st1, .err (.runtime paren
            ("can only call functions and classes, got " ++ cv.goTypeName)))
    | .nilExpr =>
      -- Calling a method on a nil `ast.Expr` interface value panics.
      some (st, .panicked)

/-- The argument-evaluation loop of `VisitCallExpression`: left to right,
stopping at the first error. -/
def evalArgs : Nat → InterpState → List Expr → List Value →
    Option (InterpState × ArgsOutcome)
  | 0, _, _, _ => Option.none
  | _ + 1, st, [], acc => some (st, .ok acc)
  | fuel + 1, st, e :: rest, acc =>
    match evalExpr fuel st e with
    | Option.none => Option.none
    | some (st1, .panicked) => some (st1, .panicked)
    | some (st1, .err err) => some (st1, .err err)
    | some (st1, .ok v) => evalArgs fuel st1 rest (acc ++ [v])

/-- The operand loop of `VisitCommaExpression`: each operand is evaluated
for effect, the last value wins, the first error is returned. -/
def evalCommaLoop : Nat → InterpState → List Expr → Value →
    Option (InterpState × EvalOutcome)
  | 0, _, _, _ => Option.none
  | _ + 1, st, [], res => some (st, .ok res)
  | fuel + 1, st, e :: rest, _ =>
    match evalExpr fuel st e with
    | Option.none => Option.none
    | some (st1, .panicked) => some (st1, .panicked)
    | some (st1, .err err) => some (st1, .err err)
    | some (st1, .ok v) => evalCommaLoop fuel st1 rest v

/-- `Callable.Call`.  For a `Function` (interpreter.go): allocate a child
frame of the closure, re-check arity, bind parameters, run the body via
`executeBlockStatement`, and turn a `ReturnValue` into the call's value
(nil when the body falls off the end).  For the native clock: the
current time. -/
def callCallable : Nat → InterpState → Value → List Value →
    Option (InterpState × EvalOutcome)
  | 0, _, _, _ => Option.none
  | fuel + 1, st, callee, args =>
    match callee with
    | .clock => some (st, .ok (.num st.now))
    | .function name params body closure =>
      let newRef := st.frames.length
      let st1 : InterpState :=
        ⟨st.frames ++ [⟨[], some closure⟩], st.env, st.output, st.now⟩
      if args.length ≠ params.length then
        some (st1, .err (.runtime name
          ("expected " ++ toString params.length ++ " arguments but got " ++
            toString args.length)))
      else
        let st2 : InterpState :=
          ⟨(params.zip args).foldl
              (fun fs pa => envDefine fs newRef pa.1.lexeme pa.2) st1.frames,
            st1.env, st1.output, st1.now⟩
        match execBlockWith fuel st2 newRef body with
        | Option.none => Option.none
        | some (st3, .panicked) => some (st3, .panicked)
        | some (st3, .err err) => some (st3, .err err)
        | some (st3, .ret v) => some (st3, .ok v)
        | some (st3, .normal) => some (st3, .ok Value.nil)
    | _ => some (st, .panicked)  -- unreachable: only Callables are called

/-- `executeBlockStatement`: swap in the given environment, run the
statements, and restore the previous environment on every exit path
(the Go `defer`). -/
def execBlockWith : Nat → InterpState → Nat → List Stmt →
    Option (InterpState × StmtOutcome)
  | 0, _, _, _ => Option.none
  | fuel + 1, st, envRef, stmts =>
    match execStmts fuel ⟨st.frames, envRef, st.output, st.now⟩ stmts with
    | Option.none => Option.none
    | some (st1, o) => some (⟨st1.frames, st.env, st1.output, st1.now⟩, o)

/-- The statement loop of `executeBlockStatement`: stop at the first
error or `ReturnValue` and pass it upward unchanged. -/
def execStmts : Nat → InterpState → List Stmt →
    Option (InterpState × StmtOutcome)
  | 0, _, _ => Option.none
  | _ + 1, st, [] => some (st, .normal)
  | fuel + 1, st, s :: rest =>
    match execStmt fuel st s with
    | Option.none => Option.none
    | some (st1, .panicked) => some (st1, .panicked)
    | some (st1, .err err) => some (st1, .err err)
    | some (st1, .ret v) => some (st1, .ret v)
    | some (st1, .normal) => execStmts fuel st1 rest

/-- `Interpreter.execute` / the statement visitor methods of
interpreter.go.  Three visitors (`VisitWhileStatement`,
`VisitIfStatement`, `VisitVarStatement`) return a bare `error` when a
condition or initializer fails; `execute`'s `.(StatementResult)` type
assertion then panics, which is modelled by `panicked` on those paths. -/
def execStmt : Nat → InterpState → Stmt → Option (InterpState × StmtOutcome)
  | 0, _, _ => Option.none
  | fuel + 1, st, stmt =>
    match stmt with
    | .Expression e =>
      match evalExpr fuel st e with
      | Option.none => Option.none
      | some (st1, .panicked) => some (st1, .panicked)
      | some (st1, .err err) => some (st1, .err err)
      | some (st1, .ok _) => some (st1, .normal)
    | .Print e =>
      match evalExpr fuel st e with
      | Option.none => Option.none
      | some (st1, .panicked) => some (st1, .panicked)
      | some (st1, .err err) => some (st1, .err err)
      | some (st1, .ok v) =>
        some (⟨st1.frames, st1.env, st1.output ++ [.printed v], st1.now⟩, .normal)
    | .Var name init =>
      match init with
      | some e =>
        match evalExpr fuel st e with
        | Option.none => Option.none
        | some (st1, .panicked) => some (st1, .panicked)
        | some (st1, .err _) => some (st1, .panicked)
          -- VisitVarStatement returns `initResult.Error` itself; the
          -- StatementResult type assertion in execute panics on it.
        | some (st1, .ok v) =>
          some (⟨envDefine st1.frames st1.env name.lexeme v,
            st1.env, st1.output, st1.now⟩, .normal)
      | Option.none =>
        some (⟨envDefine st.frames st.env name.lexeme Value.nil,
          st.env, st.output, st.now⟩, .normal)
    | .Block stmts =>
      -- VisitBlockStatement: run in a fresh child of the active environment.
      let newRef := st.frames.length
      execBlockWith fuel
        ⟨st.frames ++ [⟨[], some st.env⟩], st.env, st.output, st.now⟩
        newRef stmts
    | .If c t e =>
      match evalExpr fuel st c with
      | Option.none => Option.none
      | some (st1, .panicked) => some (st1, .panicked)
      | some (st1, .err _) => some (st1, .panicked)
        -- VisitIfStatement returns `cond.Error` itself: panic in execute.
      | some (st1, .ok v) =>
        if isTruthy v then execStmt fuel st1 t
        else
          match e with
          | some eb => execStmt fuel st1 eb
          | Option.none => some (st1, .normal)
    | .While c b =>
      match evalExpr fuel st c with
      | Option.none => Option.none
      | some (st1, .panicked) => some (st1, .panicked)
      | some (st1, .err _) => some (st1, .panicked)
        -- VisitWhileStatement returns `cond.Error` itself: panic in execute.
      | some (st1, .ok v) =>
        if isTruthy v then
          match execStmt fuel st1 b with
          | Option.none => Option.none
          | some (st2, .panicked) => some (st2, .panicked)
          | some (st2, .err err) => some (st2, .err err)
          | some (st2, .normal) => execStmt fuel st2 (.While c b)
          | some (st2, .ret v') =>
            -- The Go loop checks only `res.Error != nil`: a ReturnValue
            -- from the body is discarded and the loop keeps iterating.
            let _ := v'
            execStmt fuel st2 (.While c b)
        else some (st1, .normal)
    | .Function name params body =>
      -- VisitFunctionStatement: close over the currently active
      -- environment and define the function by name in it.
      some (⟨envDefine st.frames st.env name.lexeme
          (.function name params body st.env),
        st.env, st.output, st.now⟩, .normal)
    | .Return kw val =>
      match val with
      | Option.none =>
        -- A bare `return;` leaves stmt.Value as a nil ast.Expr;
        -- VisitReturnStatement calls Evaluate on it unconditionally and
        -- the nil-interface method call panics.
        let _ := kw
        some (st, .panicked)
      | some e =>
        match evalExpr fuel st e with
        | Option.none => Option.none
        | some (st1, .panicked) => some (st1, .panicked)
        | some (st1, .err err) => some (st1, .err err)
        | some (st1, .ok v) => some (st1, .ret v)
    | .nilStmt =>
      -- Executing a nil ast.Stmt interface value panics.
      some (st, .panicked)

end

/-- Overall result of `Interpreter.Interpret`. -/
inductive RunRes
  | completed
  | errored (e : LoxErr)
  | panicked
deriving Repr

/-- `Interpreter.Interpret`: execute the statements in order, stopping at
the first error (only `res.Error` is inspected, so a top-level
`ReturnValue` is ignored and execution continues). -/
def interpret (fuel : Nat) (st : InterpState) : List Stmt →
    Option (InterpState × RunRes)
  | [] => some (st, .completed)
  | s :: rest =>
    match execStmt fuel st s with
    | Option.none => Option.none
    | some (st1, .panicked) => some (st1, .panicked)
    | some (st1, .err err) => some (st1, .errored err)
    | some (st1, .normal) => interpret fuel st1 rest
    | some (st1, .ret _) => interpret fuel st1 rest

/-!
## The parser (parser/parser.go)

The Go parser keeps the whole token slice plus a `current` index; all of
its access goes through `currentToken`/`currentTokenIs`/`advance`/
`consume`, which only peek at or consume the front, so the index is
represented by the remaining token suffix.  Errors carry the suffix the
Go parser's `current` would point at when the error is returned, because
`parseCall` keeps parsing from that position after discarding a
`finishCall` error.
-/

/-- Result of one Go parse function: the parsed value plus the remaining
tokens, an error message plus the position it was raised at, or fuel
exhaustion (an artifact of the embedding: the Go parser always consumes
input before re-entering itself, so it terminates and any large enough
fuel agrees with it). -/
inductive PRes (α : Type)
  | ok (val : α) (rest : List Token)
  | err (msg : String) (rest : List Token)
  | out
deriving Repr

/-- `Parser.currentToken`: the next token, or a zero token with type EOF
past the end of input. -/
def currentToken : List Token → Token
  | [] => Token.eofDefault
  | t :: _ => t

/-- `Parser.currentTokenIs`: false past the end of input, membership of
the next token's type otherwise. -/
def currentTokenIs (tokens : List Token) (types : List TokenType) : Bool :=
  match tokens with
  | [] => false
  | t :: _ => types.contains t.type

/-- `Parser.advance`: take the next token or fail at end of input. -/
def advanceTok : List Token → PRes Token
  | [] => .err "unexpected end of input" []
  | t :: rest => .ok t rest

/-- `Parser.consume`: advance over a token of the expected type, or fail
with the given message plus the offending token's lexeme. -/
def consumeTok (tokens : List Token) (ty : TokenType) (msg : String) :
    PRes Token :=
  if currentTokenIs tokens [ty] then advanceTok tokens
  else .err (msg ++ " got token " ++ (currentToken tokens).lexeme) tokens

/-- Go's `fmt.Sprintf("%T", expr)` on an AST expression node. -/
def goExprTypeName : Expr → String
  | .Literal _ => "*ast.LiteralExpression"
  | .Grouping _ => "*ast.GroupingExpression"
  | .Unary _ _ => "*ast.UnaryExpression"
  | .Binary _ _ _ => "*ast.BinaryExpression"
  | .Logical _ _ _ => "*ast.LogicalExpression"
  | .Comma _ => "*ast.CommaExpression"
  | .Condition _ _ _ => "*ast.ConditionExpression"
  | .Variable _ => "*ast.VariableExpression"
  | .Assign _ _ => "*ast.AssignExpression"
  | .Call _ _ _ => "*ast.CallExpression"
  | .nilExpr => "<nil>"

/-- A token's `Literal` payload as a `LiteralExpression` value
(`&ast.LiteralExpression{Value: t.Literal}`). -/
def litValToLit : LitVal → Lit
  | .none => Lit.nil
  | .num n => Lit.num n
  | .str s => Lit.str s

/-- The inner parameter loop of `parseFunction`: `, name` pairs until the
closing parenthesis. -/
def parseParamsInner : Nat → String → List Token → List Token →
    PRes (List Token)
  | 0, _, _, _ => .out
  | fuel + 1, kind, tokens, acc =>
    if currentTokenIs tokens [.RightParen] then .ok acc tokens
    else
      match consumeTok tokens .Comma ("expected `,` after argument for " ++ kind) with
      | .out => .out
      | .err m r => .err m r
      | .ok _ r1 =>
        match consumeTok r1 .Identifier ("expected parameter name for " ++ kind) with
        | .out => .out
        | .err m r => .err m r
        | .ok p r2 => parseParamsInner fuel kind r2 (acc ++ [p])

/-- The outer parameter loop of `parseFunction` (it runs at most one real
iteration: the inner loop only stops at the closing parenthesis). -/
def parseParamsLoop : Nat → String → List Token → List Token →
    PRes (List Token)
  | 0, _, _, _ => .out
  | fuel + 1, kind, tokens, acc =>
    if currentTokenIs tokens [.RightParen] then .ok acc tokens
    else
      match consumeTok tokens .Identifier ("expected parameter name for " ++ kind) with
      | .out => .out
      | .err m r => .err m r
      | .ok p r1 =>
        match parseParamsInner fuel kind r1 (acc ++ [p]) with
        | .out => .out
        | .err m r => .err m r
        | .ok acc2 r2 => parseParamsLoop fuel kind r2 acc2

/-- The tail of `finishCall`: consume the closing parenthesis and build
the `CallExpression` with the call-site token. -/
def finishCallClose (callee : Expr) (args : List Expr) (tokens : List Token) :
    PRes Expr :=
  match consumeTok tokens .RightParen "expect `)` after function arguments" with
  | .out => .out
  | .err m r => .err m r
  | .ok paren rest => .ok (.Call callee paren args) rest

mutual

/-- The loop of `Parser.Parse`: declarations until the tokens run out or
an EOF token is reached; the first error aborts the whole parse. -/
def parseLoop : Nat → List Token → List Stmt → PRes (List Stmt)
  | 0, _, _ => .out
  | fuel + 1, tokens, acc =>
    if tokens.isEmpty || currentTokenIs tokens [.EOF] then .ok acc tokens
    else
      match parseDeclaration fuel tokens with
      | .out => .out
      | .err m r => .err m r
      | .ok stmt rest => parseLoop fuel rest (acc ++ [stmt])

/-- `Parser.ParseDeclaration`: `var` and `fun` declarations, else a
statement.  (The inner re-check of `fun` in the source can never fail.) -/
def parseDeclaration : Nat → List Token → PRes Stmt
  | 0, _ => .out
  | fuel + 1, tokens =>
    if currentTokenIs tokens [.Var] then parseVarDeclaration fuel tokens
    else if currentTokenIs tokens [.Fun] then
      match advanceTok tokens with
      | .out => .out
      | .err m r => .err m r
      | .ok _ rest => parseFunction fuel "function" rest
    else parseStatement fuel tokens

/-- `Parser.parseFunction`.  Note two faithful oddities: the error of the
`consume(RightParen, …)` call is immediately overwritten by the body
parse (`body, err := p.parseBlockStatement()`), so a missing `)` is only
reported indirectly; and the body must be a brace-delimited block. -/
def parseFunction : Nat → String → List Token → PRes Stmt
  | 0, _, _ => .out
  | fuel + 1, kind, tokens =>
    match consumeTok tokens .Identifier ("expected " ++ kind ++ " name") with
    | .out => .out
    | .err m r => .err m r
    | .ok name r1 =>
      match consumeTok r1 .LeftParen ("expected `(` after " ++ kind ++ " name") with
      | .out => .out
      | .err m r => .err m r
      | .ok _ r2 =>
        match parseParamsLoop fuel kind r2 [] with
        | .out => .out
        | .err m r => .err m r
        | .ok params r3 =>
          let r4 :=
            match consumeTok r3 .RightParen
                ("expected `)` after " ++ kind ++ " parameters") with
            | .ok _ r => r
            | _ => r3  -- the error is discarded by the source
          match parseBlockStatement fuel r4 with
          | .out => .out
          | .err m r => .err m r
          | .ok body r5 => .ok (.Function name params body) r5

/-- `Parser.parseVarDeclaration`. -/
def parseVarDeclaration : Nat → List Token → PRes Stmt
  | 0, _ => .out
  | fuel + 1, tokens =>
    if ¬ currentTokenIs tokens [.Var] then
      .err ("expected `var` but got token " ++
        tokenTypeGoString (currentToken tokens).type) tokens
    else
      match advanceTok tokens with
      | .out => .out
      | .err m r => .err m r
      | .ok _ r1 =>
        if ¬ currentTokenIs r1 [.Identifier] then
          .err ("expected identifier but got token " ++
            tokenTypeGoString (currentToken r1).type) r1
        else
          match advanceTok r1 with
          | .out => .out
          | .err m r => .err m r
          | .ok name r2 =>
            if currentTokenIs r2 [.Equal] then
              match advanceTok r2 with
              | .out => .out
              | .err m r => .err m r
              | .ok _ r3 =>
                match parseExpression fuel r3 with
                | .out => .out
                | .err m r => .err m r
                | .ok init r4 =>
                  match consumeTok r4 .Semicolon
                      "expect ';' after variable declaration." with
                  | .out => .out
                  | .err m r => .err m r
                  | .ok _ r5 => .ok (.Var name (some init)) r5
            else
              match consumeTok r2 .Semicolon
                  "expect ';' after variable declaration." with
              | .out => .out
              | .err m r => .err m r
              | .ok _ r3 => .ok (.Var name Option.none) r3

/-- `Parser.ParseStatement`: dispatch on the next token's type. -/
def parseStatement : Nat → List Token → PRes Stmt
  | 0, _ => .out
  | fuel + 1, tokens =>
    match (currentToken tokens).type with
    | .If => parseIfStatement fuel tokens
    | .Print => parsePrintStatement fuel tokens
    | .LeftBrace =>
      match parseBlockStatement fuel tokens with
      | .out => .out
      | .err m r => .err m r
      | .ok stmts rest => .ok (.Block stmts) rest
    | .While => parseWhileStatement fuel tokens
    | .For => parseForStatement fuel tokens
    | .Return => parseReturnStatement fuel tokens
    | _ => parseExpressionStatement fuel tokens

/-- `Parser.parseReturnStatement`: the value expression is parsed only
when the next token is not `;`, so a bare `return;` leaves it absent. -/
def parseReturnStatement : Nat → List Token → PRes Stmt
  | 0, _ => .out
  | fuel + 1, tokens =>
    if ¬ currentTokenIs tokens [.Return] then
      .err ("expected `return` but got token " ++
        tokenTypeGoString (currentToken tokens).type) tokens
    else
      match advanceTok tokens with
      | .out => .out
      | .err m r => .err m r
      | .ok keyword r1 =>
        if ¬ currentTokenIs r1 [.Semicolon] then
          match parseExpression fuel r1 with
          | .out => .out
          | .err m r => .err m r
          | .ok exp r2 =>
            match consumeTok r2 .Semicolon "expect `;` after return statement" with
            | .out => .out
            | .err m r => .err m r
            | .ok _ r3 => .ok (.Return keyword (some exp)) r3
        else
          match consumeTok r1 .Semicolon "expect `;` after return statement" with
          | .out => .out
          | .err m r => .err m r
          | .ok _ r2 => .ok (.Return keyword Option.none) r2

/-- `Parser.parseForStatement`: parse-time desugaring into nested
Block/While statements.  Faithful oddity: the error of the body's
`ParseStatement` call is never checked, so a failed body parse flows
into the desugared loop as a nil statement (`nilStmt`). -/
def parseForStatement : Nat → List Token → PRes Stmt
  | 0, _ => .out
  | fuel + 1, tokens =>
    if ¬ currentTokenIs tokens [.For] then
      .err ("expected `for` but got token " ++
        tokenTypeGoString (currentToken tokens).type) tokens
    else
      match advanceTok tokens with
      | .out => .out
      | .err m r => .err m r
      | .ok _ r1 =>
        match consumeTok r1 .LeftParen "expect '(' after `for`" with
        | .out => .out
        | .err m r => .err m r
        | .ok _ r2 =>
          match parseForInit fuel r2 with
          | .out => .out
          | .err m r => .err m r
          | .ok initializer r3 =>
            match parseForCond fuel r3 with
            | .out => .out
            | .err m r => .err m r
            | .ok condition r4 =>
              match consumeTok r4 .Semicolon "expect ';' after loop condition." with
              | .out => .out
              | .err m r => .err m r
              | .ok _ r5 =>
                match parseForIncr fuel r5 with
                | .out => .out
                | .err m r => .err m r
                | .ok increment r6 =>
                  match consumeTok r6 .RightParen "expect ')' after loop clauses." with
                  | .out => .out
                  | .err m r => .err m r
                  | .ok _ r7 =>
                    let (body, r8) :=
                      match parseStatement fuel r7 with
                      | .ok b r => (b, r)
                      | .err _ r => (Stmt.nilStmt, r)  -- error never checked
                      | .out => (Stmt.nilStmt, r7)
                    let body1 :=
                      match increment with
                      | some incr => Stmt.Block [body, .Expression incr]
                      | Option.none => body
                    let condition1 :=
                      match condition with
                      | some c => c
                      | Option.none => Expr.Literal (.boolean true)
                    let body2 := Stmt.While condition1 body1
                    let body3 :=
                      match initializer with
                      | some ini => Stmt.Block [ini, body2]
                      | Option.none => body2
                    .ok body3 r8

/-- The initializer clause of `parseForStatement`. -/
def parseForInit : Nat → List Token → PRes (Option Stmt)
  | 0, _ => .out
  | fuel + 1, tokens =>
    if currentTokenIs tokens [.Semicolon] then
      match advanceTok tokens with
      | .out => .out
      | .err m r => .err m r
      | .ok _ r1 => .ok Option.none r1
    else if currentTokenIs tokens [.Var] then
      match parseVarDeclaration fuel tokens with
      | .out => .out
      | .err m r => .err m r
      | .ok s r1 => .ok (some s) r1
    else
      match parseExpressionStatement fuel tokens with
      | .out => .out
      | .err m r => .err m r
      | .ok s r1 => .ok (some s) r1

/-- The condition clause of `parseForStatement` (the `;` after it is
consumed by the caller). -/
def parseForCond : Nat → List Token → PRes (Option Expr)
  | 0, _ => .out
  | fuel + 1, tokens =>
    if ¬ currentTokenIs tokens [.Semicolon] then
      match parseExpression fuel tokens with
      | .out => .out
      | .err m r => .err m r
      | .ok e r1 => .ok (some e) r1
    else .ok Option.none tokens

/-- The increment clause of `parseForStatement`. -/
def parseForIncr : Nat → List Token → PRes (Option Expr)
  | 0, _ => .out
  | fuel + 1, tokens =>
    if ¬ currentTokenIs tokens [.RightParen] then
      match parseExpression fuel tokens with
      | .out => .out
      | .err m r => .err m r
      | .ok e r1 => .ok (some e) r1
    else .ok Option.none tokens

/-- `Parser.parseWhileStatement`. -/
def parseWhileStatement : Nat → List Token → PRes Stmt
  | 0, _ => .out
  | fuel + 1, tokens =>
    if ¬ currentTokenIs tokens [.While] then
      .err ("expected `while` but got token " ++
        tokenTypeGoString (currentToken tokens).type) tokens
    else
      match advanceTok tokens with
      | .out => .out
      | .err m r => .err m r
      | .ok _ r1 =>
        match consumeTok r1 .LeftParen "expect '(' after `while`" with
        | .out => .out
        | .err m r => .err m r
        | .ok _ r2 =>
          match parseExpression fuel r2 with
          | .out => .out
          | .err m r => .err m r
          | .ok condition r3 =>
            match consumeTok r3 .RightParen "expect ')' after `while` condition" with
            | .out => .out
            | .err m r => .err m r
            | .ok _ r4 =>
              match parseStatement fuel r4 with
              | .out => .out
              | .err m r => .err m r
              | .ok body r5 => .ok (.While condition body) r5

/-- `Parser.parseIfStatement`. -/
def parseIfStatement : Nat → List Token → PRes Stmt
  | 0, _ => .out
  | fuel + 1, tokens =>
    if ¬ currentTokenIs tokens [.If] then
      .err ("expected `if` but got token " ++
        tokenTypeGoString (currentToken tokens).type) tokens
    else
      match advanceTok tokens with
      | .out => .out
      | .err m r => .err m r
      | .ok _ r1 =>
        match consumeTok r1 .LeftParen "expect '(' after `if`" with
        | .out => .out
        | .err m r => .err m r
        | .ok _ r2 =>
          match parseExpression fuel r2 with
          | .out => .out
          | .err m r => .err m r
          | .ok condition r3 =>
            match consumeTok r3 .RightParen "expect ')' after `if` condition" with
            | .out => .out
            | .err m r => .err m r
            | .ok _ r4 =>
              match parseStatement fuel r4 with
              | .out => .out
              | .err m r => .err m r
              | .ok thenBranch r5 =>
                if currentTokenIs r5 [.Else] then
                  match advanceTok r5 with
                  | .out => .out
                  | .err m r => .err m r
                  | .ok _ r6 =>
                    match parseStatement fuel r6 with
                    | .out => .out
                    | .err m r => .err m r
                    | .ok elseBranch r7 =>
                      .ok (.If condition thenBranch (some elseBranch)) r7
                else .ok (.If condition thenBranch Option.none) r5

/-- `Parser.parsePrintStatement`. -/
def parsePrintStatement : Nat → List Token → PRes Stmt
  | 0, _ => .out
  | fuel + 1, tokens =>
    if ¬ currentTokenIs tokens [.Print] then
      .err ("expected `print` but got token " ++
        tokenTypeGoString (currentToken tokens).type) tokens
    else
      match advanceTok tokens with
      | .out => .out
      | .err m r => .err m r
      | .ok _ r1 =>
        match parseExpression fuel r1 with
        | .out => .out
        | .err m r => .err m r
        | .ok e r2 =>
          match consumeTok r2 .Semicolon "expect ';' after value." with
          | .out => .out
          | .err m r => .err m r
          | .ok _ r3 => .ok (.Print e) r3

/-- `Parser.parseBlockStatement`: `{ declaration* }`, returned as the
block's statement list. -/
def parseBlockStatement : Nat → List Token → PRes (List Stmt)
  | 0, _ => .out
  | fuel + 1, tokens =>
    if ¬ currentTokenIs tokens [.LeftBrace] then
      .err ("expected `\x7b` but got token " ++
        tokenTypeGoString (currentToken tokens).type) tokens
    else
      match advanceTok tokens with
      | .out => .out
      | .err m r => .err m r
      | .ok _ r1 =>
        match parseBlockLoop fuel r1 [] with
        | .out => .out
        | .err m r => .err m r
        | .ok stmts r2 =>
          match advanceTok r2 with
          | .out => .out
          | .err m r => .err m r
          | .ok _ r3 => .ok stmts r3

/-- The declaration loop of `parseBlockStatement`, ended by `}`. -/
def parseBlockLoop : Nat → List Token → List Stmt → PRes (List Stmt)
  | 0, _, _ => .out
  | fuel + 1, tokens, acc =>
    if currentTokenIs tokens [.RightBrace] then .ok acc tokens
    else
      match parseDeclaration fuel tokens with
      | .out => .out
      | .err m r => .err m r
      | .ok stmt rest => parseBlockLoop fuel rest (acc ++ [stmt])

/-- `Parser.parseExpressionStatement`. -/
def parseExpressionStatement : Nat → List Token → PRes Stmt
  | 0, _ => .out
  | fuel + 1, tokens =>
    match parseExpression fuel tokens with
    | .out => .out
    | .err m r => .err m r
    | .ok e r1 =>
      match consumeTok r1 .Semicolon "expect ';' after expression." with
      | .out => .out
      | .err m r => .err m r
      | .ok _ r2 => .ok (.Expression e) r2

/-- `Parser.parseExpression`: the loosest precedence level is the comma
expression. -/
def parseExpression : Nat → List Token → PRes Expr
  | 0, _ => .out
  | fuel + 1, tokens => parseCommaExpression fuel tokens

/-- `Parser.parseCommaExpression`: an assignment, then — only when a
comma follows — a `CommaExpression` collecting the comma-separated
assignments. -/
def parseCommaExpression : Nat → List Token → PRes Expr
  | 0, _ => .out
  | fuel + 1, tokens =>
    match parseAssignment fuel tokens with
    | .out => .out
    | .err m r => .err m r
    | .ok e r1 =>
      if ¬ currentTokenIs r1 [.Comma] then .ok e r1
      else parseCommaExprLoop fuel r1 [e]

/-- The comma loop of `parseCommaExpression`. -/
def parseCommaExprLoop : Nat → List Token → List Expr → PRes Expr
  | 0, _, _ => .out
  | fuel + 1, tokens, acc =>
    if currentTokenIs tokens [.Comma] then
      match advanceTok tokens with
      | .out => .out
      | .err m r => .err m r
      | .ok _ r1 =>
        match parseAssignment fuel r1 with
        | .out => .out
        | .err m r => .err m r
        | .ok e r2 => parseCommaExprLoop fuel r2 (acc ++ [e])
    else .ok (.Comma acc) tokens

/-- `Parser.parseAssignment`: right-associative; only a bare variable
reference is a legal target, anything else is an "invalid assignment
target" ParseError. -/
def parseAssignment : Nat → List Token → PRes Expr
  | 0, _ => .out
  | fuel + 1, tokens =>
    match parseTernary fuel tokens with
    | .out => .out
    | .err m r => .err m r
    | .ok e r1 =>
      if currentTokenIs r1 [.Equal] then
        match advanceTok r1 with
        | .out => .out
        | .err m r => .err m r
        | .ok _ r2 =>
          match parseAssignment fuel r2 with
          | .out => .out
          | .err m r => .err m r
          | .ok val r3 =>
            match e with
            | .Variable name => .ok (.Assign name val) r3
            | _ => .err ("invalid assignment target " ++ goExprTypeName e) r3
      else .ok e r1

/-- `Parser.parseTernary`: `predicate ? consequent : alternative`, both
branches re-entering the full expression grammar. -/
def parseTernary : Nat → List Token → PRes Expr
  | 0, _ => .out
  | fuel + 1, tokens =>
    match parseOr fuel tokens with
    | .out => .out
    | .err m r => .err m r
    | .ok predicate r1 =>
      if ¬ currentTokenIs r1 [.QuestionMark] then .ok predicate r1
      else
        match advanceTok r1 with
        | .out => .out
        | .err m r => .err m r
        | .ok _ r2 =>
          match parseExpression fuel r2 with
          | .out => .out
          | .err m r => .err m r
          | .ok consequent r3 =>
            if ¬ currentTokenIs r3 [.Colon] then
              .err ("expected `:` but got token " ++
                tokenTypeGoString (currentToken r3).type) r3
            else
              match advanceTok r3 with
              | .out => .out
              | .err m r => .err m r
              | .ok _ r4 =>
                match parseExpression fuel r4 with
                | .out => .out
                | .err m r => .err m r
                | .ok alternative r5 =>
                  .ok (.Condition predicate consequent alternative) r5

/-- `Parser.ParseOr`. -/
def parseOr : Nat → List Token → PRes Expr
  | 0, _ => .out
  | fuel + 1, tokens =>
    match parseAnd fuel tokens with
    | .out => .out
    | .err m r => .err m r
    | .ok e r1 => parseOrLoop fuel e r1

/-- The `or` loop of `ParseOr`. -/
def parseOrLoop : Nat → Expr → List Token → PRes Expr
  | 0, _, _ => .out
  | fuel + 1, e, tokens =>
    if currentTokenIs tokens [.Or] then
      match advanceTok tokens with
      | .out => .out
      | .err m r => .err m r
      | .ok op r1 =>
        match parseAnd fuel r1 with
        | .out => .out
        | .err m r => .err m r
        | .ok right r2 => parseOrLoop fuel (.Logical e op right) r2
    else .ok e tokens

/-- `Parser.ParseAnd`. -/
def parseAnd : Nat → List Token → PRes Expr
  | 0, _ => .out
  | fuel + 1, tokens =>
    match parseEquality fuel tokens with
    | .out => .out
    | .err m r => .err m r
    | .ok e r1 => parseAndLoop fuel e r1

/-- The `and` loop of `ParseAnd`. -/
def parseAndLoop : Nat → Expr → List Token → PRes Expr
  | 0, _, _ => .out
  | fuel + 1, e, tokens =>
    if currentTokenIs tokens [.And] then
      match advanceTok tokens with
      | .out => .out
      | .err m r => .err m r
      | .ok op r1 =>
        match parseEquality fuel r1 with
        | .out => .out
        | .err m r => .err m r
        | .ok right r2 => parseAndLoop fuel (.Logical e op right) r2
    else .ok e tokens

/-- `Parser.ParseEquality`. -/
def parseEquality : Nat → List Token → PRes Expr
  | 0, _ => .out
  | fuel + 1, tokens =>
    match parseComparison fuel tokens with
    | .out => .out
    | .err m r => .err m r
    | .ok e r1 => parseEqualityLoop fuel e r1

/-- The `!=` / `==` loop of `ParseEquality`. -/
def parseEqualityLoop : Nat → Expr → List Token → PRes Expr
  | 0, _, _ => .out
  | fuel + 1, e, tokens =>
    if currentTokenIs tokens [.BangEqual] || currentTokenIs tokens [.EqualEqual] then
      match advanceTok tokens with
      | .out => .out
      | .err m r => .err m r
      | .ok op r1 =>
        match parseComparison fuel r1 with
        | .out => .out
        | .err m r => .err m r
        | .ok right r2 => parseEqualityLoop fuel (.Binary e op right) r2
    else .ok e tokens

/-- `Parser.parseComparison`. -/
def parseComparison : Nat → List Token → PRes Expr
  | 0, _ => .out
  | fuel + 1, tokens =>
    match parseTerm fuel tokens with
    | .out => .out
    | .err m r => .err m r
    | .ok e r1 => parseComparisonLoop fuel e r1

/-- The comparison-operator loop of `parseComparison`. -/
def parseComparisonLoop : Nat → Expr → List Token → PRes Expr
  | 0, _, _ => .out
  | fuel + 1, e, tokens =>
    if currentTokenIs tokens [.Greater, .GreaterEqual, .Less, .LessEqual] then
      match advanceTok tokens with
      | .out => .out
      | .err m r => .err m r
      | .ok op r1 =>
        match parseTerm fuel r1 with
        | .out => .out
        | .err m r => .err m r
        | .ok right r2 => parseComparisonLoop fuel (.Binary e op right) r2
    else .ok e tokens

/-- `Parser.parseTerm`. -/
def parseTerm : Nat → List Token → PRes Expr
  | 0, _ => .out
  | fuel + 1, tokens =>
    match parseFactor fuel tokens with
    | .out => .out
    | .err m r => .err m r
    | .ok e r1 => parseTermLoop fuel e r1

/-- The `+` / `-` loop of `parseTerm`. -/
def parseTermLoop : Nat → Expr → List Token → PRes Expr
  | 0, _, _ => .out
  | fuel + 1, e, tokens =>
    if currentTokenIs tokens [.Plus, .Minus] then
      match advanceTok tokens with
      | .out => .out
      | .err m r => .err m r
      | .ok op r1 =>
        match parseFactor fuel r1 with
        | .out => .out
        | .err m r => .err m r
        | .ok right r2 => parseTermLoop fuel (.Binary e op right) r2
    else .ok e tokens

/-- `Parser.parseFactor`. -/
def parseFactor : Nat → List Token → PRes Expr
  | 0, _ => .out
  | fuel + 1, tokens =>
    match parseUnary fuel tokens with
    | .out => .out
    | .err m r => .err m r
    | .ok e r1 => parseFactorLoop fuel e r1

/-- The `*` / `/` loop of `parseFactor`. -/
def parseFactorLoop : Nat → Expr → List Token → PRes Expr
  | 0, _, _ => .out
  | fuel + 1, e, tokens =>
    if currentTokenIs tokens [.Star, .Slash] then
      match advanceTok tokens with
      | .out => .out
      | .err m r => .err m r
      | .ok op r1 =>
        match parseUnary fuel r1 with
        | .out => .out
        | .err m r => .err m r
        | .ok right r2 => parseFactorLoop fuel (.Binary e op right) r2
    else .ok e tokens

/-- `Parser.parseUnary`. -/
def parseUnary : Nat → List Token → PRes Expr
  | 0, _ => .out
  | fuel + 1, tokens =>
    if currentTokenIs tokens [.Minus, .Bang] then
      match advanceTok tokens with
      | .out => .out
      | .err m r => .err m r
      | .ok op r1 =>
        match parseUnary fuel r1 with
        | .out => .out
        | .err m r => .err m r
        | .ok right r2 => .ok (.Unary op right) r2
    else parseCall fuel tokens

/-- `Parser.parseCall`. -/
def parseCall : Nat → List Token → PRes Expr
  | 0, _ => .out
  | fuel + 1, tokens =>
    match parsePrimary fuel tokens with
    | .out => .out
    | .err m r => .err m r
    | .ok callee r1 => parseCallLoop fuel callee r1

/-- The call loop of `parseCall`.  Faithful to a Go shadowing slip in the
source: inside the loop, `callee, err = p.finishCall(callee)` assigns
into the `err` declared by the preceding `p.advance()` call, which is
never checked again — so a `finishCall` failure is silently discarded,
the callee becomes the nil expression, and parsing resumes at the
position where `finishCall` stopped. -/
def parseCallLoop : Nat → Expr → List Token → PRes Expr
  | 0, _, _ => .out
  | fuel + 1, callee, tokens =>
    if currentTokenIs tokens [.LeftParen] then
      match advanceTok tokens with
      | .out => .out
      | .err m r => .err m r
      | .ok _ r1 =>
        match finishCall fuel callee r1 with
        | .out => .out
        | .ok callee2 r2 => parseCallLoop fuel callee2 r2
        | .err _ r2 => parseCallLoop fuel Expr.nilExpr r2
    else .ok callee tokens

/-- `Parser.finishCall`: parse the arguments as one comma expression;
when that is a `CommaExpression` of 255 or more entries, fail with the
too-many-arguments ParseError (reached only after the whole comma list
has been parsed), otherwise flatten it into the argument list and
consume the closing parenthesis. -/
def finishCall : Nat → Expr → List Token → PRes Expr
  | 0, _, _ => .out
  | fuel + 1, callee, tokens =>
    if ¬ currentTokenIs tokens [.RightParen] then
      match parseCommaExpression fuel tokens with
      | .out => .out
      | .err m r => .err m r
      | .ok e r1 =>
        match e with
        | .Comma es =>
          if 255 ≤ es.length then
            .err ("can't have more than 255 arguments., got " ++
              toString es.length) r1
          else finishCallClose callee es r1
        | _ => finishCallClose callee [e] r1
    else finishCallClose callee [] tokens

/-- `Parser.parsePrimary`. -/
def parsePrimary : Nat → List Token → PRes Expr
  | 0, _ => .out
  | fuel + 1, tokens =>
    if currentTokenIs tokens [.True] then
      match advanceTok tokens with
      | .out => .out
      | .err m r => .err m r
      | .ok _ r1 => .ok (.Literal (.boolean true)) r1
    else if currentTokenIs tokens [.False] then
      match advanceTok tokens with
      | .out => .out
      | .err m r => .err m r
      | .ok _ r1 => .ok (.Literal (.boolean false)) r1
    else if currentTokenIs tokens [.Nil] then
      match advanceTok tokens with
      | .out => .out
      | .err m r => .err m r
      | .ok _ r1 => .ok (.Literal .nil) r1
    else if currentTokenIs tokens [.Number, .String] then
      match advanceTok tokens with
      | .out => .out
      | .err m r => .err m r
      | .ok t r1 => .ok (.Literal (litValToLit t.literal)) r1
    else if currentTokenIs tokens [.LeftParen] then
      match advanceTok tokens with
      | .out => .out
      | .err m r => .err m r
      | .ok _ r1 =>
        match parseExpression fuel r1 with
        | .out => .out
        | .err m r => .err m r
        | .ok e r2 =>
          if currentTokenIs r2 [.RightParen] then
            match advanceTok r2 with
            | .out => .out
            | .err m r => .err m r
            | .ok _ r3 => .ok (.Grouping e) r3
          else
            .err ("expected `)` but got token " ++
              tokenTypeGoString (currentToken r2).type) r2
    else if currentTokenIs tokens [.Identifier] then
      match advanceTok tokens with
      | .out => .out
      | .err m r => .err m r
      | .ok name r1 => .ok (.Variable name) r1
    else
      .err ("expected expression got " ++
        tokenTypeGoString (currentToken tokens).type) tokens

end

/-- `Parser.Parse`: the program entry point of the parser. -/
def parseProgram (fuel : Nat) (tokens : List Token) : PRes (List Stmt) :=
  parseLoop fuel tokens []

/-!
## The resolver (interpreter/resolver.go)

The scope stack is a list of scopes with the innermost scope last,
mirroring the Go slice.  A scope's `map[string]*NameMetadata` is an
association list in declaration order; the one place Go map iteration
order is observable (the end-of-block loop in `VisitBlockStatement`) is
noted there.  The side table written by `interpreter.resolve` (keyed by
node pointer in Go) is modelled as the ordered list of
`(name, distance)` facts recorded. -/

/-- `interpreter.NameMetadata`. -/
structure NameMetadata where
  initialized : Bool
  used : Bool
deriving DecidableEq, Repr

/-- One lexical scope: the Go `map[string]*NameMetadata`. -/
abbrev Scope := List (String × NameMetadata)

/-- `interpreter.FunctionType`. -/
inductive FunctionType
  | None
  | Function
deriving DecidableEq, Repr

/-- `interpreter.ResolveError{Token, Message}`. -/
structure RError where
  token : Token
  message : String
deriving DecidableEq, Repr

/-- The resolver's mutable state (`interpreter.Resolver` plus the
interpreter side table it writes through `interpreter.resolve`). -/
structure ResolverState where
  scopes : List Scope
  currentFunctionType : FunctionType
  locals : List (String × Nat)
deriving Repr

/-- `interpreter.NewResolver`. -/
def initialResolverState : ResolverState := ⟨[], .None, []⟩

/-- Result of resolving one node: success, a `ResolveError`, or a Go
panic (the `panic("TODO")` visitors, a nil-map-entry dereference in
`define`, a negative slice index in the end-of-block check). -/
inductive ROutcome
  | ok
  | err (e : RError)
  | panicked
deriving Repr

/-- Go map membership on a scope. -/
def scopeContains : Scope → String → Bool
  | [], _ => false
  | (k, _) :: rest, n => k = n || scopeContains rest n

/-- Go map lookup on a scope. -/
def scopeGet : Scope → String → Option NameMetadata
  | [], _ => Option.none
  | (k, v) :: rest, n => if k = n then some v else scopeGet rest n

/-- Update the metadata stored under a present key. -/
def scopeSetMeta : Scope → String → NameMetadata → Scope
  | [], _, _ => []
  | (k, v) :: rest, n, md =>
    if k = n then (k, md) :: rest else (k, v) :: scopeSetMeta rest n md

/-- `Resolver.declare`: no-op with no open scope; error on redeclaration
in the innermost scope; otherwise add the name as declared-uninitialized. -/
def rDeclare (st : ResolverState) (name : Token) :
    Except RError ResolverState :=
  match st.scopes.getLast? with
  | Option.none => .ok st
  | some scope =>
    if scopeContains scope name.lexeme then
      .error ⟨name, "Already a variable with this name `" ++ name.lexeme ++
        "` in this scope."⟩
    else
      .ok ⟨st.scopes.dropLast ++ [scope ++ [(name.lexeme, ⟨false, false⟩)]],
        st.currentFunctionType, st.locals⟩

/-- `Resolver.define`: mark the name initialized in the innermost scope.
Dereferencing the map entry of an undeclared name is a Go nil-pointer
panic, modelled by `none`. -/
def rDefine (st : ResolverState) (name : Token) : Option ResolverState :=
  match st.scopes.getLast? with
  | Option.none => some st
  | some scope =>
    match scopeGet scope name.lexeme with
    | Option.none => Option.none
    | some md =>
      some ⟨st.scopes.dropLast ++ [scopeSetMeta scope name.lexeme ⟨true, md.used⟩],
        st.currentFunctionType, st.locals⟩

/-- `metadata.used = true` through the innermost scope's map entry. -/
def rMarkUsed (st : ResolverState) (name : String) : ResolverState :=
  match st.scopes.getLast? with
  | Option.none => st
  | some scope =>
    match scopeGet scope name with
    | Option.none => st
    | some md =>
      ⟨st.scopes.dropLast ++ [scopeSetMeta scope name ⟨md.initialized, true⟩],
        st.currentFunctionType, st.locals⟩

/-- The loop of `Resolver.resolveLocal` over the reversed scope stack:
the distance (in scopes, innermost = 0) to the first scope containing
the name, if any. -/
def resolveLocalWalk : List Scope → String → Option Nat
  | [], _ => Option.none
  | s :: rest, n =>
    if scopeContains s n then some 0
    else (resolveLocalWalk rest n).map (fun d => d + 1)

/-- `Resolver.resolveLocal`: walk the scope stack from innermost outward;
on the first scope containing the name, record the binding distance via
`interpreter.resolve` (modelled as appending to the side-table list);
record nothing when no scope contains it. -/
def resolveLocal (st : ResolverState) (name : String) : ResolverState :=
  match resolveLocalWalk st.scopes.reverse name with
  | some d =>
    ⟨st.scopes, st.currentFunctionType, st.locals ++ [(name, d)]⟩
  | Option.none => st

/-- Parameter declaration/definition loop of `resolveFunction`. -/
def rDeclareParams (st : ResolverState) : List Token →
    Option (Except RError ResolverState)
  | [] => some (.ok st)
  | p :: rest =>
    match rDeclare st p with
    | .error e => some (.error e)
    | .ok st1 =>
      match rDefine st1 p with
      | Option.none => Option.none
      | some st2 => rDeclareParams st2 rest

/-- The end-of-block check in `VisitBlockStatement`: with a function
context, every local of the closing block scope must not collide with a
parameter name and must have been used.  The Go source iterates the
scope map in nondeterministic map order and reports the first offender;
this model iterates in declaration order.  (In every theorem below the
error is the same under any order.) -/
def rCheckBlockLocals (parametersScope : Scope) : Scope → ROutcome
  | [] => .ok
  | (n, md) :: rest =>
    if scopeContains parametersScope n then
      .err ⟨⟨.LeftParen, n, .none, 0⟩,
        "Local variable `" ++ n ++ "` conflicts with parameter."⟩
    else if ¬ md.used then
      .err ⟨⟨.LeftParen, n, .none, 0⟩,
        "Local variable `" ++ n ++ "` is declared but never used."⟩
    else rCheckBlockLocals parametersScope rest

mutual

/-- `Resolver.ResolveExpression` / the expression visitors of
resolver.go.  `VisitCommaExpression` and `VisitConditionExpression` are
`panic("TODO")` in the source. -/
def resolveExpr : Nat → ResolverState → Expr →
    Option (ResolverState × ROutcome)
  | 0, _, _ => Option.none
  | fuel + 1, st, e =>
    match e with
    | .Literal _ => some (st, .ok)
    | .Grouping inner => resolveExpr fuel st inner
    | .Unary _ right => resolveExpr fuel st right
    | .Binary l _ r =>
      match resolveExpr fuel st l with
      | Option.none => Option.none
      | some (st1, .ok) => resolveExpr fuel st1 r
      | some (st1, o) => some (st1, o)
    | .Logical l _ r =>
      match resolveExpr fuel st l with
      | Option.none => Option.none
      | some (st1, .ok) => resolveExpr fuel st1 r
      | some (st1, o) => some (st1, o)
    | .Comma _ => some (st, .panicked)
    | .Condition _ _ _ => some (st, .panicked)
    | .Variable name =>
      if st.scopes.isEmpty then some (resolveLocal st name.lexeme, .ok)
      else
        match scopeGet (st.scopes.getLast?.getD []) name.lexeme with
        | Option.none =>
          -- The name is absent from the *innermost* scope: the source
          -- returns nil here ("we assume it's a global variable") and
          -- never reaches resolveLocal, so no outer scope is consulted.
          some (st, .ok)
        | some md =>
          if ¬ md.initialized then
            some (st, .err ⟨name, "Can't read local variable in its own initializer."⟩)
          else
            some (resolveLocal (rMarkUsed st name.lexeme) name.lexeme, .ok)
    | .Assign name value =>
      match resolveExpr fuel st value with
      | Option.none => Option.none
      | some (st1, .ok) => some (resolveLocal st1 name.lexeme, .ok)
      | some (st1, o) => some (st1, o)
    | .Call callee _ args =>
      match resolveExpr fuel st callee with
      | Option.none => Option.none
      | some (st1, .ok) => resolveExprList fuel st1 args
      | some (st1, o) => some (st1, o)
    | .nilExpr => some (st, .panicked)

/-- The argument loop of `VisitCallExpression` in the resolver. -/
def resolveExprList : Nat → ResolverState → List Expr →
    Option (ResolverState × ROutcome)
  | 0, _, _ => Option.none
  | _ + 1, st, [] => some (st, .ok)
  | fuel + 1, st, e :: rest =>
    match resolveExpr fuel st e with
    | Option.none => Option.none
    | some (st1, .ok) => resolveExprList fuel st1 rest
    | some (st1, o) => some (st1, o)

/-- `Resolver.ResolveStatement` / the statement visitors of resolver.go. -/
def resolveStmt : Nat → ResolverState → Stmt →
    Option (ResolverState × ROutcome)
  | 0, _, _ => Option.none
  | fuel + 1, st, stmt =>
    match stmt with
    | .Expression e => resolveExpr fuel st e
    | .Print e => resolveExpr fuel st e
    | .Var name init =>
      match rDeclare st name with
      | .error e => some (st, .err e)
      | .ok st1 =>
        match init with
        | some e =>
          match resolveExpr fuel st1 e with
          | Option.none => Option.none
          | some (st2, .ok) =>
            match rDefine st2 name with
            | Option.none => some (st2, .panicked)
            | some st3 => some (st3, .ok)
          | some (st2, o) => some (st2, o)
        | Option.none =>
          match rDefine st1 name with
          | Option.none => some (st1, .panicked)
          | some st2 => some (st2, .ok)
    | .Block stmts =>
      -- VisitBlockStatement: begin a scope, resolve the statements,
      -- run the end-of-block check under a function context, and end
      -- the scope on every exit path (the Go defer).
      let st1 : ResolverState :=
        ⟨st.scopes ++ [[]], st.currentFunctionType, st.locals⟩
      match resolveStmtList fuel st1 stmts with
      | Option.none => Option.none
      | some (st2, .ok) =>
        if st2.currentFunctionType = .Function then
          if st2.scopes.length < 2 then
            -- r.scopes[len(r.scopes)-2] with a negative index: Go panics.
            some (st2, .panicked)
          else
            let parametersScope := (st2.scopes.get? (st2.scopes.length - 2)).getD []
            let blockScope := st2.scopes.getLast?.getD []
            some (⟨st2.scopes.dropLast, st2.currentFunctionType, st2.locals⟩,
              rCheckBlockLocals parametersScope blockScope)
        else
          some (⟨st2.scopes.dropLast, st2.currentFunctionType, st2.locals⟩, .ok)
      | some (st2, o) =>
        some (⟨st2.scopes.dropLast, st2.currentFunctionType, st2.locals⟩, o)
    | .If c t e =>
      match resolveExpr fuel st c with
      | Option.none => Option.none
      | some (st1, .ok) =>
        match resolveStmt fuel st1 t with
        | Option.none => Option.none
        | some (st2, .ok) =>
          match e with
          | some eb => resolveStmt fuel st2 eb
          | Option.none => some (st2, .ok)
        | some (st2, o) => some (st2, o)
      | some (st1, o) => some (st1, o)
    | .While c b =>
      match resolveExpr fuel st c with
      | Option.none => Option.none
      | some (st1, .ok) => resolveStmt fuel st1 b
      | some (st1, o) => some (st1, o)
    | .Function name params body =>
      match rDeclare st name with
      | .error e => some (st, .err e)
      | .ok st1 =>
        match rDefine st1 name with
        | Option.none => some (st1, .panicked)
        | some st2 => resolveFunction fuel st2 params body .Function
    | .Return kw val =>
      if st.currentFunctionType = .None then
        some (st, .err ⟨kw, "Can't return from top-level code."⟩)
      else
        match val with
        | some e => resolveExpr fuel st e
        | Option.none => some (st, .ok)
    | .nilStmt => some (st, .panicked)

/-- The statement loop shared by `VisitBlockStatement`. -/
def resolveStmtList : Nat → ResolverState → List Stmt →
    Option (ResolverState × ROutcome)
  | 0, _, _ => Option.none
  | _ + 1, st, [] => some (st, .ok)
  | fuel + 1, st, s :: rest =>
    match resolveStmt fuel st s with
    | Option.none => Option.none
    | some (st1, .ok) => resolveStmtList fuel st1 rest
    | some (st1, o) => some (st1, o)

/-- `Resolver.resolveFunction`: push one scope for the parameters,
declare and define each, resolve the body block inside it, then restore
the enclosing function-context flag and pop the scope on every exit
path (the Go defers). -/
def resolveFunction : Nat → ResolverState → List Token → List Stmt →
    FunctionType → Option (ResolverState × ROutcome)
  | 0, _, _, _, _ => Option.none
  | fuel + 1, st, params, body, functionType =>
    let enclosingFunctionType := st.currentFunctionType
    let st1 : ResolverState := ⟨st.scopes ++ [[]], functionType, st.locals⟩
    match rDeclareParams st1 params with
    | Option.none => some (st1, .panicked)
    | some (.error e) =>
      some (⟨st1.scopes.dropLast, enclosingFunctionType, st1.locals⟩, .err e)
    | some (.ok st2) =>
      match resolveStmt fuel st2 (.Block body) with
      | Option.none => Option.none
      | some (st3, o) =>
        some (⟨st3.scopes.dropLast, enclosingFunctionType, st3.locals⟩, o)

end

/-!
## Environment-chain characterisation helpers

Derived walks over the same `enclosing` links `Environment.Assign`
follows; used to state what the assignment does. -/

/-- Whether some frame along the enclosing chain starting at `ref`
declares `name`. -/
def chainHasName (fuel : Nat) (frames : List Frame) (ref : Nat)
    (name : String) : Option Bool :=
  match fuel with
  | 0 => Option.none
  | fuel + 1 =>
    match frames[ref]? with
    | Option.none => Option.none
    | some fr =>
      if containsKey fr.values name then some true
      else
        match fr.enclosing with
        | some parent => chainHasName fuel frames parent name
        | Option.none => some false

/-- The index of the nearest frame along the enclosing chain starting at
`ref` that declares `name` (`some none` when no frame does). -/
def nearestDeclaring (fuel : Nat) (frames : List Frame) (ref : Nat)
    (name : String) : Option (Option Nat) :=
  match fuel with
  | 0 => Option.none
  | fuel + 1 =>
    match frames[ref]? with
    | Option.none => Option.none
    | some fr =>
      if containsKey fr.values name then some (some ref)
      else
        match fr.enclosing with
        | some parent => nearestDeclaring fuel frames parent name
        | Option.none => some Option.none

/-- Heap well-formedness: every `enclosing` index points strictly below
its own frame.  This holds by construction at runtime, since
`NewEnvironment` always links a fresh frame to an existing one. -/
def framesWF (frames : List Frame) : Bool :=
  (List.range frames.length).all (fun i =>
    match frames[i]? with
    | some fr =>
      match fr.enclosing with
      | some p => decide (p < i)
      | Option.none => true
    | Option.none => true)

/-!
## Concrete inputs for the theorems

Token lists are faithful hand-tokenisations of the quoted Lox source
(the lexer assigns each token its lexeme and line; the sources here are
one-liners, so every line is 1).  Expected ASTs are validated against
the embedded parser inside the theorems themselves. -/

/-- A token with no literal payload on line 1. -/
def tokOf (ty : TokenType) (lx : String) : Token := ⟨ty, lx, .none, 1⟩

/-- A number token on line 1. -/
def numTok (i : Int) (lx : String) : Token := ⟨.Number, lx, .num (LoxNum.ofInt i), 1⟩

/-- An identifier token on line 1. -/
def identTok (s : String) : Token := ⟨.Identifier, s, .none, 1⟩

/-- `!=` and `==` operator tokens, and the other operator tokens used in
expression-level claims. -/
def bangEqualTok : Token := tokOf .BangEqual "!="

/-- `==`. -/
def equalEqualTok : Token := tokOf .EqualEqual "=="

/-- `/`. -/
def slashTok : Token := tokOf .Slash "/"

/-- `>`. -/
def greaterTok : Token := tokOf .Greater ">"

/-- `>=`. -/
def greaterEqualTok : Token := tokOf .GreaterEqual ">="

/-- `+`. -/
def plusTok : Token := tokOf .Plus "+"

/-- `return`. -/
def returnTok : Token := tokOf .Return "return"

/-- `)` — `CallExpression.Paren` records the closing parenthesis token
consumed by `finishCall`. -/
def rparenTok : Token := tokOf .RightParen ")"

/-- The statement `while (true) return 1;`: its body immediately
produces a return-signal. -/
def whileReturnStmt : Stmt :=
  .While (.Literal (.boolean true)) (.Return returnTok (some (.Literal (.num 1))))

/-- Tokens of the resolver test program from the repository's own
`TestResolver_LocalVariableUsdInClosure`
(`fun foo() { var a = 123; fun bar() { print a; } bar(); }`). -/
def c4Tokens : List Token :=
  [tokOf .Fun "fun", identTok "foo", tokOf .LeftParen "(", rparenTok,
    tokOf .LeftBrace "\x7b",
    tokOf .Var "var", identTok "a", tokOf .Equal "=", numTok 123 "123",
    tokOf .Semicolon ";",
    tokOf .Fun "fun", identTok "bar", tokOf .LeftParen "(", rparenTok,
    tokOf .LeftBrace "\x7b",
    tokOf .Print "print", identTok "a", tokOf .Semicolon ";",
    tokOf .RightBrace "\x7d",
    identTok "bar", tokOf .LeftParen "(", rparenTok, tokOf .Semicolon ";",
    tokOf .RightBrace "\x7d"]

/-- The AST the parser produces for `c4Tokens` (checked by theorem). -/
def c4Stmt : Stmt :=
  .Function (identTok "foo") []
    [.Var (identTok "a") (some (.Literal (.num 123))),
      .Function (identTok "bar") [] [.Print (.Variable (identTok "a"))],
      .Expression (.Call (.Variable (identTok "bar")) rparenTok [])]

/-- Tokens of the closure-capture program from the spec:
`fun make(){ var x=0; fun inc(){ x = x+1; return x; } return inc; }
var f = make(); print f(); print f();`. -/
def c5Tokens : List Token :=
  [tokOf .Fun "fun", identTok "make", tokOf .LeftParen "(", rparenTok,
    tokOf .LeftBrace "\x7b",
    tokOf .Var "var", identTok "x", tokOf .Equal "=", numTok 0 "0",
    tokOf .Semicolon ";",
    tokOf .Fun "fun", identTok "inc", tokOf .LeftParen "(", rparenTok,
    tokOf .LeftBrace "\x7b",
    identTok "x", tokOf .Equal "=", identTok "x", plusTok, numTok 1 "1",
    tokOf .Semicolon ";",
    returnTok, identTok "x", tokOf .Semicolon ";",
    tokOf .RightBrace "\x7d",
    returnTok, identTok "inc", tokOf .Semicolon ";",
    tokOf .RightBrace "\x7d",
    tokOf .Var "var", identTok "f", tokOf .Equal "=", identTok "make",
    tokOf .LeftParen "(", rparenTok, tokOf .Semicolon ";",
    tokOf .Print "print", identTok "f", tokOf .LeftParen "(", rparenTok,
    tokOf .Semicolon ";",
    tokOf .Print "print", identTok "f", tokOf .LeftParen "(", rparenTok,
    tokOf .Semicolon ";"]

/-- Body of the inner function `inc`: `x = x+1; return x;`. -/
def c5IncBody : List Stmt :=
  [.Expression (.Assign (identTok "x")
      (.Binary (.Variable (identTok "x")) plusTok (.Literal (.num 1)))),
    .Return returnTok (some (.Variable (identTok "x")))]

/-- Body of `make`: `var x=0; fun inc(){…} return inc;`. -/
def c5MakeBody : List Stmt :=
  [.Var (identTok "x") (some (.Literal (.num 0))),
    .Function (identTok "inc") [] c5IncBody,
    .Return returnTok (some (.Variable (identTok "inc")))]

/-- The AST the parser produces for `c5Tokens` (checked by theorem). -/
def c5Stmts : List Stmt :=
  [.Function (identTok "make") [] c5MakeBody,
    .Var (identTok "f") (some (.Call (.Variable (identTok "make")) rparenTok [])),
    .Print (.Call (.Variable (identTok "f")) rparenTok []),
    .Print (.Call (.Variable (identTok "f")) rparenTok [])]

/-- The function value `make` closes over the global frame (index 0). -/
def c5MakeFn : Value := .function (identTok "make") [] c5MakeBody 0

/-- The function value `inc` closes over the frame of the `make()` call
(index 1) — the frame whose `x` both later calls mutate. -/
def c5IncFn : Value := .function (identTok "inc") [] c5IncBody 1

/-- The global frame once `f` holds the closure returned by `make()`. -/
def c5GlobalFrame : Frame :=
  ⟨[("clock", .clock), ("make", c5MakeFn), ("f", c5IncFn)], Option.none⟩

/-- Interpreter state after `fun make(){…}`. -/
def c5St1 (now : LoxNum) : InterpState :=
  ⟨[⟨[("clock", .clock), ("make", c5MakeFn)], Option.none⟩], 0, [], now⟩

/-- State after `var f = make();`: the call's frame (index 1) holds
`x = 0` and the `inc` closure pointing back at it. -/
def c5St2 (now : LoxNum) : InterpState :=
  ⟨[c5GlobalFrame, ⟨[("x", .num 0), ("inc", c5IncFn)], some 0⟩], 0, [], now⟩

/-- State after the first `print f();`: frame 1's `x` was mutated to 1
through the closure, and `1` was printed. -/
def c5St3 (now : LoxNum) : InterpState :=
  ⟨[c5GlobalFrame, ⟨[("x", .num 1), ("inc", c5IncFn)], some 0⟩,
      ⟨[], some 1⟩],
    0, [.printed (.num 1)], now⟩

/-- State after the second `print f();`: the same shared frame's `x` is
now 2, and `2` was printed. -/
def c5St4 (now : LoxNum) : InterpState :=
  ⟨[c5GlobalFrame, ⟨[("x", .num 2), ("inc", c5IncFn)], some 0⟩,
      ⟨[], some 1⟩, ⟨[], some 1⟩],
    0, [.printed (.num 1), .printed (.num 2)], now⟩

/-- Tokens for the expression statement `f(1,1,…,1);` with `n` number
arguments. -/
def callArgsTokens (n : Nat) : List Token :=
  [identTok "f", tokOf .LeftParen "("] ++
    (numTok 1 "1" :: (List.replicate (n - 1) [tokOf .Comma ",", numTok 1 "1"]).flatten) ++
    [rparenTok, tokOf .Semicolon ";"]

/-- The argument-token suffix of `f(1,1)` starting right after the `(`:
a concrete input on which `parseCommaExpression` yields a two-entry
comma list. -/
def c6WitnessToks : List Token :=
  [numTok 1 "1", tokOf .Comma ",", numTok 1 "1", rparenTok, tokOf .Semicolon ";"]

/-- Tokens of `fun f() { return; } f();`: a bare return executed by a
call. -/
def c10Tokens : List Token :=
  [tokOf .Fun "fun", identTok "f", tokOf .LeftParen "(", rparenTok,
    tokOf .LeftBrace "\x7b",
    returnTok, tokOf .Semicolon ";",
    tokOf .RightBrace "\x7d",
    identTok "f", tokOf .LeftParen "(", rparenTok, tokOf .Semicolon ";"]

/-- The AST the parser produces for `c10Tokens` (checked by theorem). -/
def c10Stmts : List Stmt :=
  [.Function (identTok "f") [] [.Return returnTok Option.none],
    .Expression (.Call (.Variable (identTok "f")) rparenTok [])]

/-- A two-frame heap (a global declaring `x` and a child declaring `y`)
used as the concrete input of the environment-assignment witness. -/
def c8Frames : List Frame :=
  [⟨[("x", .num 1)], Option.none⟩, ⟨[("y", .num 2)], some 0⟩]

/-!
## Theorems
-/

/-- C1.  The claim says `a != b` evaluates to the negation of `a == b`.
The code's `TokenTypeBangEqual` arm returns `isEqual(left, right)`
unnegated, so `1 != 1` and `1 == 1` both evaluate to `true`: at the
failing input `1 != 1` the code answers `true` where the claim requires
`false`.  (The "never a RuntimeError" half does hold: both arms return
a value for every operand pair.) -/
theorem c1_bang_equal_is_not_negation (n : Nat) (st : InterpState) :
    evalExpr (n + 2) st
        (.Binary (.Literal (.num 1)) bangEqualTok (.Literal (.num 1))) =
      some (st, .ok (.boolean true)) ∧
    evalExpr (n + 2) st
        (.Binary (.Literal (.num 1)) equalEqualTok (.Literal (.num 1))) =
      some (st, .ok (.boolean true)) :=
  ⟨rfl, rfl⟩

/-- C3.  The claim says a ternary evaluates its predicate and then
exactly one branch.  `VisitConditionExpression` is an unimplemented
TODO returning Go `nil`, so `Evaluate`'s `.(EvaluatedResult)` type
assertion panics on every ternary — nothing at all is evaluated, for
any predicate and branches. -/
theorem c3_ternary_panics (n : Nat) (st : InterpState) (p c a : Expr) :
    evalExpr (n + 1) st (.Condition p c a) = some (st, .panicked) :=
  rfl

/-- C7.  Evaluating `a / b` on two number literals yields the quotient
when the divisor is nonzero and the `RuntimeError` "division by zero is
not allowed" exactly when it is `0`; any non-number operand yields the
`RuntimeError` naming both operand types.  (Numbers are modelled as
exact fractions; the claim concerns the zero test and error routing,
not rounding.) -/
theorem c7_division_semantics (la lb : Lit) (n : Nat) (st : InterpState) :
    evalExpr (n + 2) st (.Binary (.Literal la) slashTok (.Literal lb)) =
      some (st,
        match la, lb with
        | .num a, .num b =>
          if loxEq b loxZero then
            .err (.runtime slashTok "division by zero is not allowed")
          else .ok (.num (loxDiv a b))
        | _, _ =>
          .err (.runtime slashTok ("expected numbers for division, got " ++
            (Lit.toValue la).goTypeName ++ " and " ++ (Lit.toValue lb).goTypeName))) := by
  cases la <;> cases lb <;> rfl

/-- C9.  The claim says all four comparison operators produce a
`RuntimeError` carrying the operator token on non-number operands.
Three do, but the `TokenTypeGreaterEqual` arm builds a bare
`fmt.Errorf` error that carries no token: at the failing input
`true >= false` the error is a plain message, while `true > false`
produces the token-carrying `RuntimeError`. -/
theorem c9_greater_equal_error_has_no_token (n : Nat) (st : InterpState) :
    evalExpr (n + 2) st
        (.Binary (.Literal (.boolean true)) greaterEqualTok
          (.Literal (.boolean false))) =
      some (st, .err (.plain
        "expected numbers for greater than or equal comparison, got bool and bool")) ∧
    evalExpr (n + 2) st
        (.Binary (.Literal (.boolean true)) greaterTok
          (.Literal (.boolean false))) =
      some (st, .err (.runtime greaterTok
        "expected numbers for greater than comparison, got bool and bool")) :=
  ⟨rfl, rfl⟩

/-- C10.  The parser accepts a bare `return;` leaving the return value
expression absent, and executing it always panics: `VisitReturnStatement`
calls `Evaluate(stmt.Value)` unconditionally, a method call on a nil
interface.  Running `fun f() { return; } f();` parses fine and then
aborts with the panic instead of producing a nil-valued return-signal. -/
theorem c10_bare_return_panics :
    parseProgram 300 c10Tokens = .ok c10Stmts [] ∧
    (∀ (n : Nat) (st : InterpState) (kw : Token),
      execStmt (n + 1) st (.Return kw Option.none) = some (st, .panicked)) ∧
    (interpret 100 (initialState 0) c10Stmts).map Prod.snd = some .panicked :=
  ⟨rfl, fun _ _ _ => rfl, rfl⟩

/-- C4.  The claim says every variable reference is resolved by walking
the scope stack from innermost outward.  `VisitVariableExpression`
instead returns early ("assume it's a global") whenever the name is
absent from the *innermost* scope, never consulting the enclosing
scopes: resolving the repository's own test program
`fun foo() { var a = 123; fun bar() { print a; } bar(); }`
(`TestResolver_LocalVariableUsdInClosure`, which expects success)
records no distance for the closure's read of `a`, leaves `a` unmarked
as used, and therefore fails with "Local variable `a` is declared but
never used." — the side table ends up holding only `bar ↦ 0`. -/
theorem c4_variable_resolution_stops_at_innermost_scope :
    parseProgram 300 c4Tokens = .ok [c4Stmt] [] ∧
    (resolveStmt 100 initialResolverState c4Stmt).map
        (fun (r : ResolverState × ROutcome) => (r.1.locals, r.2)) =
      some ([("bar", 0)],
        .err ⟨⟨.LeftParen, "a", .none, 0⟩,
          "Local variable `a` is declared but never used."⟩) :=
  ⟨rfl, rfl⟩

/-- Executing `fun make(){…}` defines the `make` closure in the global
frame. -/
theorem c5_step1 (now : LoxNum) :
    execStmt 100 (initialState now) (.Function (identTok "make") [] c5MakeBody) =
      some (c5St1 now, .normal) := rfl

/-- Executing `var f = make();` runs `make` in a fresh child frame of
the global frame and binds `f` to the returned `inc` closure, which
keeps that frame (holding `x = 0`) alive. -/
theorem c5_step2 (now : LoxNum) :
    execStmt 100 (c5St1 now)
        (.Var (identTok "f") (some (.Call (.Variable (identTok "make")) rparenTok []))) =
      some (c5St2 now, .normal) := rfl

/-- The first `print f();` mutates `x` in the captured frame to 1 and
prints 1. -/
theorem c5_step3 (now : LoxNum) :
    execStmt 100 (c5St2 now) (.Print (.Call (.Variable (identTok "f")) rparenTok [])) =
      some (c5St3 now, .normal) := rfl

/-- The second `print f();` mutates the same captured frame's `x` to 2
and prints 2. -/
theorem c5_step4 (now : LoxNum) :
    execStmt 100 (c5St3 now) (.Print (.Call (.Variable (identTok "f")) rparenTok [])) =
      some (c5St4 now, .normal) := rfl

/-- C5.  Running
`fun make(){ var x=0; fun inc(){ x = x+1; return x; } return inc; }
var f = make(); print f(); print f();`
prints `1` then `2` (Go renders the float64 values `1` and `2` as `1`
and `2`): the returned function closes over the frame created by the
`make()` call, both calls mutate that same captured frame, and the
frame outlives the call that created it. -/
theorem c5_closure_captures_shared_mutable_frame (now : LoxNum) :
    parseProgram 300 c5Tokens = .ok c5Stmts [] ∧
    (interpret 100 (initialState now) c5Stmts).map
        (fun (r : InterpState × RunRes) => (r.1.output, r.2)) =
      some ([.printed (.num 1), .printed (.num 2)], .completed) := by
  refine ⟨rfl, ?_⟩
  have h : interpret 100 (initialState now) c5Stmts = some (c5St4 now, .completed) := by
    simp only [c5Stmts, interpret, c5_step1 now, c5_step2 now, c5_step3 now,
      c5_step4 now]
  rw [h]
  rfl

/-- C2.  The claim says a while statement propagates a return-signal
from its body just as block execution does.  The Go loop checks only
`res.Error != nil`, so the `ReturnValue` produced by the body is
discarded and the loop starts the next iteration: executing
`while (true) return 1;` never terminates — for every fuel the
execution is still running (`none`), and in particular no return-signal
is ever propagated. -/
theorem c2_while_discards_return_signal (fuel : Nat) (st : InterpState) :
    execStmt fuel st whileReturnStmt = Option.none := by
  induction fuel generalizing st with
  | zero => rfl
  | succ f ih =>
    match f with
    | 0 => rfl
    | 1 => rfl
    | k + 2 =>
      calc execStmt (k + 3) st whileReturnStmt
          = execStmt (k + 2) st whileReturnStmt := rfl
        _ = Option.none := ih st

set_option maxRecDepth 8000 in
/-- C6 counterexample.  The claim says an argument list of up to 255
entries is accepted and only a count exceeding 255 draws the
too-many-arguments ParseError, which is a diagnostic rather than a hard
stop.  Parsing `f(1,…,1);` with exactly 255 arguments (not exceeding
255) fails — and with a different message: `finishCall` raises its
too-many-arguments error at `len >= 255`, `parseCall` discards that
error through a shadowed `err` variable (losing the call node), and the
parse then dies at the unconsumed `)` with
"expect ';' after expression.". -/
theorem c6_255_arguments_rejected :
    parseProgram 400 (callArgsTokens 255) =
      .err "expect ';' after expression. got token )"
        [rparenTok, tokOf .Semicolon ";"] := rfl

set_option maxRecDepth 8000 in
/-- C6 as amended.  For every call whose arguments parse as a comma list
of `n` entries: with `n ≤ 254` the parser accepts the list and builds
the call node; with `n ≥ 255` `finishCall` fails with the
"can't have more than 255 arguments" ParseError after the comma list
has been parsed in full — a hard error, not a diagnostic (and one the
call loop then swallows, as the counterexample shows).  The closed
conjunct checks the boundary: `f(1,…,1);` with 254 arguments parses to
a 254-argument call. -/
theorem c6_argument_cap (fuel : Nat) (callee : Expr) (toks : List Token)
    (es : List Expr) (rest : List Token)
    (h1 : currentTokenIs toks [.RightParen] = false)
    (h2 : parseCommaExpression fuel toks = .ok (.Comma es) rest) :
    (255 ≤ es.length →
      finishCall (fuel + 1) callee toks =
        .err ("can't have more than 255 arguments., got " ++
          toString es.length) rest) ∧
    (es.length < 255 →
      finishCall (fuel + 1) callee toks = finishCallClose callee es rest) ∧
    parseProgram 400 (callArgsTokens 254) =
      .ok [.Expression (.Call (.Variable (identTok "f")) rparenTok
        (List.replicate 254 (.Literal (.num 1))))] [] := by
  refine ⟨?_, ?_, rfl⟩
  · intro hlen
    simp [finishCall, h1, h2, hlen]
  · intro hlen
    have hnot : ¬ 255 ≤ es.length := by omega
    simp [finishCall, h1, h2, hnot]

/-- Witness for the argument-cap theorem: on the concrete argument
tokens of `f(1,1)` the comma list has two entries and `finishCall`
accepts it. -/
theorem c6_argument_cap_witness :
    finishCall 51 (.Variable (identTok "f")) c6WitnessToks =
      finishCallClose (.Variable (identTok "f"))
        [.Literal (.num 1), .Literal (.num 1)]
        [rparenTok, tokOf .Semicolon ";"] :=
  (c6_argument_cap 50 (.Variable (identTok "f")) c6WitnessToks
      [.Literal (.num 1), .Literal (.num 1)] [rparenTok, tokOf .Semicolon ";"]
      rfl rfl).2.1 (by decide)

/-- A Go map update of a present key replaces a value in place: the key
list of the association list is unchanged. -/
theorem listUpsert_fst (l : List (String × Value)) (k : String) (v : Value)
    (h : containsKey l k = true) :
    (listUpsert l k v).map Prod.fst = l.map Prod.fst := by
  induction l with
  | nil => simp [containsKey] at h
  | cons p rest ih =>
    obtain ⟨k', v'⟩ := p
    by_cases hk : k' = k
    · simp [listUpsert, hk]
    · have h' : containsKey rest k = true := by
        simpa [containsKey, hk] using h
      simp [listUpsert, hk, ih h']

/-- Setting an index to an element with the same image leaves the mapped
list unchanged. -/
theorem map_set_self {α β : Type} (l : List α) (i : Nat) (a : α)
    (f : α → β) (h : ∀ b, l[i]? = some b → f a = f b) :
    (l.set i a).map f = l.map f := by
  induction l generalizing i with
  | nil => simp
  | cons x rest ih =>
    cases i with
    | zero => simp [h x (by simp)]
    | succ j =>
      simp only [List.set, List.map]
      rw [ih j (fun b hb => h b (by simpa using hb))]

/-- In a well-formed heap every `enclosing` link points strictly
downward. -/
theorem framesWF_parent_lt (frames : List Frame) (i p : Nat) (fr : Frame)
    (hwf : framesWF frames = true) (hfr : frames[i]? = some fr)
    (hp : fr.enclosing = some p) : p < i := by
  have hi : i < frames.length := by
    by_contra hcon
    rw [List.getElem?_eq_none (Nat.le_of_not_lt hcon)] at hfr
    exact Option.noConfusion hfr
  have := (List.all_eq_true.mp hwf) i (List.mem_range.mpr hi)
  rw [hfr] at this
  simp [hp] at this
  exact this

/-- C8.  `Environment.Assign` on the chain rooted at frame `ref`:
it fails with the `RuntimeError` naming the undefined variable exactly
when no frame along the chain declares the name; otherwise it replaces
the binding's value in the nearest declaring frame, every frame keeps
exactly its old keys and `enclosing` link (no binding is ever created),
and no other frame changes. -/
theorem c8_assign_characterisation
    (fuel : Nat) (frames : List Frame) (ref : Nat) (name : Token) (v : Value)
    (hwf : framesWF frames = true) (href : ref < frames.length)
    (hfuel : ref < fuel) :
    (envAssign fuel frames ref name v =
        some (.error (.runtime name ("Undefined variable " ++ name.lexeme))) ↔
      chainHasName fuel frames ref name.lexeme = some false) ∧
    (∀ frames', envAssign fuel frames ref name v = some (.ok frames') →
      ∃ j fr, nearestDeclaring fuel frames ref name.lexeme = some (some j) ∧
        frames[j]? = some fr ∧ containsKey fr.values name.lexeme = true ∧
        frames' = frames.set j ⟨listUpsert fr.values name.lexeme v, fr.enclosing⟩ ∧
        frames'.map (fun fr => fr.values.map Prod.fst) =
          frames.map (fun fr => fr.values.map Prod.fst) ∧
        frames'.map Frame.enclosing = frames.map Frame.enclosing) := by
  induction fuel generalizing ref with
  | zero => exact absurd hfuel (Nat.not_lt_zero ref)
  | succ f ih =>
    have hfr : frames[ref]? = some frames[ref] := List.getElem?_eq_getElem href
    by_cases hck : containsKey (frames[ref]).values name.lexeme = true
    · constructor
      · simp [envAssign, chainHasName, hfr, hck]
      · intro frames' hok
        simp only [envAssign, hfr, hck, if_true, Option.some.injEq,
          Except.ok.injEq] at hok
        refine ⟨ref, frames[ref], ?_, hfr, hck, hok.symm, ?_, ?_⟩
        · simp [nearestDeclaring, hfr, hck]
        · rw [← hok]
          exact map_set_self _ _ _ _ (fun b hb => by
            rw [hfr] at hb
            cases hb
            simp [listUpsert_fst _ _ _ hck])
        · rw [← hok]
          exact map_set_self _ _ _ _ (fun b hb => by
            rw [hfr] at hb
            cases hb
            rfl)
    · rw [Bool.not_eq_true] at hck
      cases hpar : (frames[ref]).enclosing with
      | none =>
        constructor
        · simp [envAssign, chainHasName, hfr, hck, hpar]
        · intro frames' hok
          simp [envAssign, hfr, hck, hpar] at hok
      | some p =>
        have hp : p < ref := framesWF_parent_lt frames ref p frames[ref] hwf hfr hpar
        have href' : p < frames.length := Nat.lt_trans hp href
        have hfuel' : p < f := by omega
        have step1 : envAssign (f + 1) frames ref name v =
            envAssign f frames p name v := by
          simp [envAssign, hfr, hck, hpar]
        have step2 : chainHasName (f + 1) frames ref name.lexeme =
            chainHasName f frames p name.lexeme := by
          simp [chainHasName, hfr, hck, hpar]
        have step3 : nearestDeclaring (f + 1) frames ref name.lexeme =
            nearestDeclaring f frames p name.lexeme := by
          simp [nearestDeclaring, hfr, hck, hpar]
        rw [step1, step2, step3]
        exact ih p href' hfuel'

/-- Witness for the assignment characterisation: on the concrete
two-frame heap, assigning the undeclared name `z` starting at the child
frame fails with the `RuntimeError` "Undefined variable z". -/
theorem c8_assign_witness :
    envAssign 2 c8Frames 1 (identTok "z") (.num 5) =
      some (.error (.runtime (identTok "z") "Undefined variable z")) :=
  (c8_assign_characterisation 2 c8Frames 1 (identTok "z") (.num 5)
      (by decide) (by decide) (by decide)).1.mpr (by decide)



end GoLox
